import Mathlib

/-
Verification development for PaddleTS `paddlets/datasets/tsdataset.py`.

The Python module defines two classes:
  * `TimeSeries`  - a pandas DataFrame keyed by a RangeIndex (ordinal axis)
    or a DatetimeIndex (calendar axis), together with a frequency that is an
    `int` step for ordinal axes or a pandas period-code `str` for calendar axes;
  * `TSDataset`   - a composite of optional target / observed_cov / known_cov
    TimeSeries plus an optional static_cov dict.

This file is a shallow embedding of that module.  DataFrames are modelled as a
rectangular table (`Frame`): a list of integer time labels (`index`, tagged by
the axis kind), a list of column names (`cols`) and a list of rows.  Calendar
timestamps are modelled as integers (a count of hours), and the pandas
period-code table is modelled by `codeStep` ("D" = 24 hours, "H" = 1 hour).
Python `float('nan')` cells are `Val.nan`; Python `==` on cell values is
`valEq` (under which `nan` is not equal to itself, as in Python).
Python exceptions are values of `PyErr`; functions that can raise return
`Except PyErr _`.  Methods that mutate their receiver in place and can raise
midway return the post-call state together with an optional raised error
(`_ × Option PyErr`), because in Python the receiver keeps the partially
mutated state when the exception propagates.

Behaviour of external pandas operations used by the module (asfreq, reindex,
concat, infer_freq, RangeIndex) is modelled here directly, restricted to the
shapes the module actually uses.
-/

set_option maxHeartbeats 1000000

/-- Kind of a pandas index: `RangeIndex` (ordinal) or `DatetimeIndex` (calendar). -/
inductive IndexKind where
  | range
  | datetime
deriving DecidableEq, Repr

/-- A cell value: an integer, a string, or a missing value (`float('nan')`). -/
inductive Val where
  | vint (i : Int)
  | vstr (s : String)
  | nan
deriving DecidableEq, Repr

/-- Python `==` on cell values: `nan` compares unequal to everything,
including itself. -/
def valEq : Val → Val → Bool
  | .vint a, .vint b => a == b
  | .vstr a, .vstr b => a == b
  | _, _ => false

/-- A raised Python exception, by class and message. -/
inductive PyErr where
  | valueError (msg : String)
  | typeError (msg : String)
  | attributeError (msg : String)
  | indexError (msg : String)
deriving DecidableEq, Repr

/-- The `freq` field of a TimeSeries: an `int` step size for a RangeIndex or a
period-code `str` for a DatetimeIndex. -/
inductive Freq where
  | fint (step : Int)
  | fstr (code : String)
deriving DecidableEq, Repr

/-- The pandas period-code table, restricted to the codes used here:
"D" is 24 hours, "H" is one hour. -/
def codeStep : String → Option Int :=
  fun c => if c = "D" then some 24 else if c = "H" then some 1 else none

/-- Inverse of `codeStep`, used to model `pd.infer_freq`. -/
def stepCode : Int → Option String :=
  fun s => if s = 24 then some "D" else if s = 1 then some "H" else none

/-- A rectangular pandas DataFrame: time labels, column names, rows. -/
structure Frame where
  ikind : IndexKind
  index : List Int
  cols : List String
  rows : List (List Val)
deriving DecidableEq, Repr

/-- A row of `n` missing values. -/
def nanRow (n : Nat) : List Val := List.replicate n .nan

/-- `df.iloc[:k]` — the first `k` rows. -/
def Frame.ilocTo (f : Frame) (k : Nat) : Frame :=
  { f with index := f.index.take k, rows := f.rows.take k }

/-- `df.iloc[k:]` — the rows from position `k` on. -/
def Frame.ilocFrom (f : Frame) (k : Nat) : Frame :=
  { f with index := f.index.drop k, rows := f.rows.drop k }

/-- `df.reindex(newIdx)`: for each new label take the row carrying that label
in `f` (first occurrence), or a row of missing values. -/
def Frame.reindexRows (f : Frame) (newIdx : List Int) : Frame :=
  { ikind := f.ikind, index := newIdx, cols := f.cols,
    rows := newIdx.map fun lbl =>
      (((f.index.zip f.rows).lookup lbl).getD (nanRow f.cols.length)) }

/-- `df.reindex(columns=cs)` / `df[cs]`: select the named columns in the given
order (missing names become missing values). -/
def Frame.projectCols (f : Frame) (cs : List String) : Frame :=
  { ikind := f.ikind, index := f.index, cols := cs,
    rows := f.rows.map fun r =>
      cs.map fun c => (((f.cols.zip r).lookup c).getD .nan) }

/-- Drop the named columns (positionally, keeping the rest in order). -/
def Frame.dropCols (f : Frame) (cs : List String) : Frame :=
  { ikind := f.ikind, index := f.index,
    cols := f.cols.filter (fun c => ¬ cs.contains c),
    rows := f.rows.map fun r =>
      ((f.cols.zip r).filter (fun p => ¬ cs.contains p.1)).map Prod.snd }

/-- Set (replace or append) column `c` of the frame to the given cell list,
as `df[c] = series` does after alignment. -/
def Frame.setCol (f : Frame) (c : String) (vals : List Val) : Frame :=
  match f.cols.findIdx? (· == c) with
  | some j =>
    { f with rows := f.rows.enum.map fun p => p.2.set j (vals.getD p.1 .nan) }
  | none =>
    { f with cols := f.cols ++ [c],
             rows := f.rows.enum.map fun p => p.2 ++ [vals.getD p.1 .nan] }

/-- The arithmetic grid `start, start+step, ...` strictly below `stop`
(`pd.RangeIndex(start, stop, step)` for a positive step). -/
def rangeList (start stop step : Int) : List Int :=
  if 0 < step ∧ start < stop then
    (List.range (((stop - start - 1).toNat / step.toNat) + 1)).map
      (fun (i : Nat) => start + step * (i : Int))
  else []

/-- The arithmetic grid from `start` to `stop` inclusive with positive step
(`pd.date_range(start, stop, freq)`). -/
def dateRange (start stop step : Int) : List Int :=
  if 0 < step ∧ start ≤ stop then
    (List.range (((stop - start).toNat / step.toNat) + 1)).map
      (fun (i : Nat) => start + step * (i : Int))
  else []

/-- The arithmetic progression of length `n` starting at `a` with step `s`
(specification helper for conforming calendar axes). -/
def arithList (a s : Int) (n : Nat) : List Int :=
  (List.range n).map (fun (i : Nat) => a + s * (i : Int))

/-- Stable-enough insertion of an (index, row) pair into a key-sorted list. -/
def insertByKey (p : Int × List Val) : List (Int × List Val) → List (Int × List Val)
  | [] => [p]
  | q :: rest => if p.1 < q.1 then p :: q :: rest else q :: insertByKey p rest

/-- Insertion sort of (index, row) pairs by index key. -/
def sortPairs : List (Int × List Val) → List (Int × List Val)
  | [] => []
  | p :: rest => insertByKey p (sortPairs rest)

/-- `df.sort_index()`: reorder the rows so the index is ascending. -/
def Frame.sortByIndex (f : Frame) : Frame :=
  let pairs := sortPairs (f.index.zip f.rows)
  { f with index := pairs.map Prod.fst, rows := pairs.map Prod.snd }

/-- Minimum of a list of integers (`min(xs)` — `none` when empty, where
Python raises). -/
def minList : List Int → Option Int
  | [] => none
  | x :: xs => match minList xs with | none => some x | some m => some (min x m)

/-- Maximum of a list of integers. -/
def maxList : List Int → Option Int
  | [] => none
  | x :: xs => match maxList xs with | none => some x | some m => some (max x m)

/-- `class TimeSeries`: a frame plus its frequency. -/
structure TimeSeries where
  data : Frame
  freq : Freq
deriving DecidableEq, Repr

/-- `TimeSeries.__init__(data, freq)`.  For an `int` freq it just stores the
pair.  For a `str` freq it runs `data.asfreq(freq)` — conforming the frame
onto the grid `date_range(index[0], index[-1], freq)` — and raises
`ValueError("Invalid freq: ...")` when the code is unknown or the reindex
fails on duplicate labels; `asfreq` on a non-Datetime index raises TypeError. -/
def TimeSeries.make (data : Frame) (freq : Freq) : Except PyErr TimeSeries :=
  match freq with
  | .fint _ => .ok ⟨data, freq⟩
  | .fstr code =>
    match codeStep code with
    | none => .error (.valueError ("Invalid freq: " ++ code))
    | some s =>
      if data.ikind ≠ .datetime then
        .error (.typeError "asfreq requires a DatetimeIndex")
      else if data.index.isEmpty then .ok ⟨data, freq⟩
      else if data.index.dedup.length ≠ data.index.length then
        .error (.valueError ("Invalid freq: " ++ code))
      else
        match data.index.head?, data.index.getLast? with
        | some st, some en => .ok ⟨data.reindexRows (dateRange st en s), freq⟩
        | _, _ => .ok ⟨data, freq⟩

/-- `TimeSeries.end_time`: the last value of the time index (IndexError when
the series is empty). -/
def TimeSeries.end_time (ts : TimeSeries) : Except PyErr Int :=
  match ts.data.index.getLast? with
  | some v => .ok v
  | none => .error (.indexError "index -1 is out of bounds")

/-- A point on the time axis, as passed to `get_index_at_point` / `split`:
a float proportion, a literal `int` row position, or a timestamp
(strings are converted to timestamps up front, as the Python does). -/
inductive SplitPoint where
  | frac (q : ℚ)
  | pos (i : Int)
  | ts (t : Int)
deriving DecidableEq, Repr

/-- `TimeSeries.get_index_at_point(point, after)`. -/
def TimeSeries.get_index_at_point (ts : TimeSeries) (point : SplitPoint)
    (after : Bool) : Except PyErr Int :=
  match point with
  | .frac q =>
    if ¬ (0 ≤ q ∧ q ≤ 1) then
      .error (.valueError "point (float) should be between 0.0 and 1.0.")
    else .ok (Rat.floor (((ts.data.rows.length : Int) - 1) * q))
  | .pos i =>
    if i < 0 ∨ (ts.data.rows.length : Int) ≤ i then
      .error (.valueError "point (int) should be a valid index in series.")
    else .ok i
  | .ts t =>
    if ts.data.ikind ≠ .datetime then
      .error (.valueError "The provided point is of the Timestamp type, but the type of time column is not DatetimeIndex")
    else
      match ts.data.index.head?, ts.data.index.getLast? with
      | some st, some en =>
        if ¬ (st ≤ t ∧ t ≤ en) then
          .error (.valueError "The point is out of the valid range.")
        else if ts.data.index.contains t then
          .ok (ts.data.index.findIdx (· == t) : Nat)
        else if after then
          match ts.data.index.find? (fun x => t ≤ x) with
          | some e => .ok (ts.data.index.findIdx (· == e) : Nat)
          | none => .error (.valueError "StopIteration")
        else
          match ts.data.index.reverse.find? (fun x => x ≤ t) with
          | some e => .ok (ts.data.index.findIdx (· == e) : Nat)
          | none => .error (.valueError "StopIteration")
      | _, _ => .error (.indexError "index 0 is out of bounds")

/-- `TimeSeries.split(split_point, after)`: resolve the point, then cut at
`point + shift` where `shift` is 0 for a literal `int` point and 1 otherwise;
each half goes through the `TimeSeries` constructor. -/
def TimeSeries.split (ts : TimeSeries) (split_point : SplitPoint)
    (after : Bool) : Except PyErr (TimeSeries × TimeSeries) :=
  match ts.get_index_at_point split_point after with
  | .error e => .error e
  | .ok point =>
    let shift : Int := match split_point with | .pos _ => 0 | _ => 1
    let k := (point + shift).toNat
    match TimeSeries.make (ts.data.ilocTo k) ts.freq with
    | .error e => .error e
    | .ok left =>
      match TimeSeries.make (ts.data.ilocFrom k) ts.freq with
      | .error e => .error e
      | .ok right => .ok (left, right)

/-- Column union in order of first appearance (`pd.concat` on the row axis
aligns columns by name). -/
def colUnion (fs : List Frame) : List String :=
  fs.foldl (fun acc f => acc ++ f.cols.filter (fun c => ¬ acc.contains c)) []

/-- `pd.concat(frames, axis=0)`: stack rows, aligning columns by name. -/
def pdConcatRows (fs : List Frame) : Frame :=
  match fs with
  | [] => ⟨.range, [], [], []⟩
  | f0 :: _ =>
    let cs := colUnion fs
    { ikind := f0.ikind,
      index := (fs.map Frame.index).flatten,
      cols := cs,
      rows := (fs.map (fun f => (f.projectCols cs).rows)).flatten }

/-- Row of frame `f` at label `lbl`, missing-filled when absent. -/
def rowAtLabel (f : Frame) (lbl : Int) : List Val :=
  ((f.index.zip f.rows).lookup lbl).getD (nanRow f.cols.length)

/-- Sorted deduplicated union of index label lists (outer join axis). -/
def sortedUnion (ls : List (List Int)) : List Int :=
  ((sortPairs ((ls.flatten.dedup).map (fun v => (v, ([] : List Val))))).map Prod.fst)

/-- `pd.concat(frames, axis=1)`: juxtapose columns; when the indexes differ,
outer-join onto their sorted union. -/
def pdConcatCols (fs : List Frame) : Frame :=
  match fs with
  | [] => ⟨.range, [], [], []⟩
  | f0 :: _ =>
    if fs.all (fun f => f.index = f0.index) then
      { ikind := f0.ikind,
        index := f0.index,
        cols := (fs.map Frame.cols).flatten,
        rows := (List.range f0.index.length).map fun i =>
          (fs.map (fun f => f.rows.getD i (nanRow f.cols.length))).flatten }
    else
      let idx := sortedUnion (fs.map Frame.index)
      { ikind := f0.ikind,
        index := idx,
        cols := (fs.map Frame.cols).flatten,
        rows := idx.map fun lbl => (fs.map (fun f => rowAtLabel f lbl)).flatten }

/-- `TimeSeries.concat(tss, axis)`. -/
def TimeSeries.concat (tss : List TimeSeries) (axis : Int) :
    Except PyErr TimeSeries :=
  if ((tss.map TimeSeries.freq).dedup.length ≠ 1) then
    .error (.valueError "Failed to concatenate, the freqs of TimeSeries objects are not consistent .")
  else
    match tss with
    | [] => .error (.valueError "Failed to concatenate, the freqs of TimeSeries objects are not consistent .")
    | t0 :: _ =>
      if axis = 0 then
        let data := pdConcatRows (tss.map TimeSeries.data)
        if data.index.dedup.length ≠ data.index.length then
          .error (.valueError "Failed to concatenate, duplicated values found in the time column.")
        else TimeSeries.make data t0.freq
      else if axis = 1 then
        let data := pdConcatCols (tss.map TimeSeries.data)
        if data.cols.dedup.length ≠ data.cols.length then
          .error (.valueError "Failed to concatenate, duplicated column names found.")
        else TimeSeries.make data t0.freq
      else .error (.valueError "Failed to concatenate, invalid axis")

/-- `TimeSeries.load_from_dataframe` for integer-typed time values, with the
value columns already selected (`cols`/`rows`) and the time column extracted
(`timeVals`): checks duplicate column names, duplicate time values, the freq
argument (`if freq:` — so 0 falls back to the default 1), and that
`(stop - start)/freq == len(data)` exactly; then reindexes the rows
positionally onto `RangeIndex(start, stop, freq)` and sorts by index. -/
def TimeSeries.loadIntsGo (timeVals : List Int) (cols : List String)
    (rows : List (List Val)) (f : Int) : Except PyErr TimeSeries :=
  match minList timeVals, maxList timeVals with
  | some mn, some mx =>
    let stop := mx + f
    if stop - mn ≠ f * (rows.length : Int) then
      .error (.valueError "The number of rows does not match with the RangeIndex!")
    else
      TimeSeries.make (Frame.sortByIndex ⟨.range, rangeList mn stop f, cols, rows⟩) (.fint f)
  | _, _ => .error (.valueError "min() arg is an empty sequence")

/-- See `TimeSeries.loadIntsGo` for the body after freq resolution. -/
def TimeSeries.load_ints (timeVals : List Int) (cols : List String)
    (rows : List (List Val)) (freq : Option Int) : Except PyErr TimeSeries :=
  if cols.dedup.length ≠ cols.length then
    .error (.valueError "duplicated column names in the data!")
  else if timeVals.dedup.length ≠ timeVals.length then
    .error (.valueError "duplicated values in the time column!")
  else
    match freq with
    | some fr =>
      if fr = 0 then TimeSeries.loadIntsGo timeVals cols rows 1
      else if 1 ≤ fr then TimeSeries.loadIntsGo timeVals cols rows fr
      else .error (.valueError "The type of freq should be int when the type of time_col is RangeIndex")
    | none => TimeSeries.loadIntsGo timeVals cols rows 1

/-- `pd.infer_freq` on a modelled DatetimeIndex: a unique positive step whose
period code is known, requiring at least 3 points (as pandas does). -/
def inferFreqCode (idx : List Int) : Option String :=
  match idx with
  | a :: b :: c :: rest =>
    if (List.zip (a :: b :: c :: rest) (b :: c :: rest)).all
        (fun p => p.2 - p.1 = b - a) ∧ 0 < b - a then
      stepCode (b - a)
    else none
  | _ => none

/-- `TimeSeries.load_from_dataframe(pd.DataFrame(series.rename(column)))` —
loading a single pandas Series (index `idx` of kind `ik`, values `vals`) as a
one-column TimeSeries named `column`, with no explicit freq. -/
def loadSeriesAsTs (ik : IndexKind) (idx : List Int) (vals : List Val)
    (column : String) : Except PyErr TimeSeries :=
  if idx.dedup.length ≠ idx.length then
    .error (.valueError "duplicated values in the time column!")
  else
    match ik with
    | .range =>
      TimeSeries.load_ints idx [column] (vals.map (fun v => [v])) none
    | .datetime =>
      match inferFreqCode idx with
      | none => .error (.valueError "Failed to infer the freq. A valid freq is required.")
      | some code =>
        TimeSeries.make
          (Frame.sortByIndex ⟨.datetime, idx, [column], vals.map (fun v => [v])⟩)
          (.fstr code)

/-- `class TSDataset`: optional target, observed covariate and known covariate
series plus an optional static-covariate dict (an insertion-ordered
association list, as a Python dict is) and the `_freq` field set by
`_check_data`. -/
structure TSDataset where
  target : Option TimeSeries
  observed_cov : Option TimeSeries
  known_cov : Option TimeSeries
  static_cov : Option (List (String × Val))
  freq : Option Freq
deriving DecidableEq, Repr

/-- The `freq_list` collected by `TSDataset._check_data` (target, observed,
known — in that order, skipping absent partitions). -/
def freqListOf (t o k : Option TimeSeries) : List Freq :=
  (match t with | some x => [x.freq] | none => [])
    ++ (match o with | some x => [x.freq] | none => [])
    ++ (match k with | some x => [x.freq] | none => [])

/-- The `columns_list` collected by `TSDataset._check_data` (target, observed,
known columns then static keys, skipping absent partitions). -/
def colsListOf (t o k : Option TimeSeries) (s : Option (List (String × Val))) :
    List String :=
  (match t with | some x => x.data.cols | none => [])
    ++ (match o with | some x => x.data.cols | none => [])
    ++ (match k with | some x => x.data.cols | none => [])
    ++ (match s with | some m => m.map Prod.fst | none => [])

/-- The combined column list of a dataset. -/
def TSDataset.columnsList (ds : TSDataset) : List String :=
  colsListOf ds.target ds.observed_cov ds.known_cov ds.static_cov

/-- `TSDataset._check_data`, as a state transformer: checks that the present
partitions carry exactly one distinct frequency (raising otherwise), then
stores `freq_list[0]` into `_freq`, then checks that no column name repeats
(raising otherwise).  The returned dataset is the receiver's state when the
call returns or the exception propagates. -/
def TSDataset.check_data (ds : TSDataset) : TSDataset × Option PyErr :=
  let fl := freqListOf ds.target ds.observed_cov ds.known_cov
  let cl := ds.columnsList
  if fl.dedup.length ≠ 1 then
    (ds, some (.valueError "The freqs of target, observed_covariate, and known_covariate are not consistent."))
  else
    let ds1 := { ds with freq := fl.head? }
    if cl.dedup.length ≠ cl.length then
      (ds1, some (.valueError "Duplicated column names in target, observed_covariate, and known_covariate."))
    else (ds1, none)

/-- `TSDataset.__init__(target, observed_cov, known_cov, static_cov)` with the
default `fill_missing_dates=False` (so no gap-filling pass runs): assembles
the fields and runs `_check_data`; when the check raises, no object is
produced. -/
def TSDataset.make (t o k : Option TimeSeries)
    (s : Option (List (String × Val))) : Except PyErr TSDataset :=
  match TSDataset.check_data ⟨t, o, k, s, none⟩ with
  | (ds1, none) => .ok ds1
  | (_, some e) => .error e

/-- The dataset's own invariants from the specification: exactly one distinct
frequency among present time-varying partitions, and no duplicate column
name across partitions and static keys. -/
def TSDataset.invariantsHold (ds : TSDataset) : Bool :=
  ((freqListOf ds.target ds.observed_cov ds.known_cov).dedup.length == 1)
    && (ds.columnsList.dedup.length == ds.columnsList.length)

/-- `TSDataset.set_target(target)`: assign, then `_check_data`. -/
def TSDataset.set_target (ds : TSDataset) (t : TimeSeries) :
    TSDataset × Option PyErr :=
  TSDataset.check_data { ds with target := some t }

/-- `TSDataset.set_observed_cov(observed_cov)`: assign, then `_check_data`. -/
def TSDataset.set_observed_cov (ds : TSDataset) (o : TimeSeries) :
    TSDataset × Option PyErr :=
  TSDataset.check_data { ds with observed_cov := some o }

/-- `TSDataset.set_known_cov(known_cov)`: assign, then `_check_data`. -/
def TSDataset.set_known_cov (ds : TSDataset) (k : TimeSeries) :
    TSDataset × Option PyErr :=
  TSDataset.check_data { ds with known_cov := some k }

/-- Python `{**a, **b}`: keys of `a` in order (values overridden by `b`),
then the new keys of `b` in order. -/
def mergeDict (a b : List (String × Val)) : List (String × Val) :=
  (a.map fun kv => match b.lookup kv.1 with
    | some v => (kv.1, v)
    | none => kv)
    ++ b.filter (fun kv => (a.lookup kv.1).isNone)

/-- Python `d[k] = v`: replace the binding in place, or append a new one. -/
def dictSet (m : List (String × Val)) (k : String) (v : Val) :
    List (String × Val) :=
  if (m.lookup k).isSome then
    m.map fun kv => if kv.1 == k then (k, v) else kv
  else m ++ [(k, v)]

/-- `TSDataset.set_static_cov(static_cov, append=True)`: merge into the
existing dict when appending and the existing dict is truthy (non-None and
non-empty), otherwise replace; then `_check_data`. -/
def TSDataset.set_static_cov (ds : TSDataset) (s : List (String × Val))
    (append : Bool) : TSDataset × Option PyErr :=
  let newStatic :=
    match ds.static_cov with
    | some m => if append && ¬ m.isEmpty then mergeDict m s else s
    | none => s
  TSDataset.check_data { ds with static_cov := some newStatic }

/-- Truthiness of an optional TimeSeries field (`if self._target:`):
present and with at least one row (`TimeSeries.__len__`). -/
def tsTruthy : Option TimeSeries → Bool
  | some t => t.data.rows.length != 0
  | none => false

/-- Truthiness of the static dict (`if self._static_cov:`). -/
def staticTruthy : Option (List (String × Val)) → Bool
  | some m => ¬ m.isEmpty
  | none => false

/-- Columns of an optional TimeSeries. -/
def optCols : Option TimeSeries → List String
  | some t => t.data.cols
  | none => []

/-- Which partition a column resolved to. -/
inductive PartKind where
  | target
  | observed
  | known
  | static
deriving DecidableEq, Repr

/-- `TSDataset.get_item_from_column(column)`: target, observed, known, static
in that priority order, using Python truthiness on each partition;
`ValueError` when found nowhere. -/
def TSDataset.get_item_from_column (ds : TSDataset) (column : String) :
    Except PyErr PartKind :=
  if tsTruthy ds.target && (optCols ds.target).contains column then .ok .target
  else if tsTruthy ds.observed_cov && (optCols ds.observed_cov).contains column then .ok .observed
  else if tsTruthy ds.known_cov && (optCols ds.known_cov).contains column then .ok .known
  else if staticTruthy ds.static_cov
      && (match ds.static_cov with
          | some m => (m.lookup column).isSome
          | none => false) then .ok .static
  else .error (.valueError ("column: " ++ column ++ " not exists!"))

/-- A partition's contribution to `TSDataset.__getitem__`: the matching
columns as a sub-frame, flagged as a pandas Series when exactly one column
matched (`df[name]` instead of `df[[name]]`). -/
def partContrib (res : Option (Bool × Frame)) (part : Option TimeSeries)
    (columns : List String) : Option (Bool × Frame) :=
  match part with
  | none => res
  | some t =>
    if t.data.rows.length = 0 then res
    else
      let matched := columns.filter (fun v => t.data.cols.contains v)
      if matched.isEmpty then res
      else
        let piece : Bool × Frame := (matched.length = 1, t.data.projectCols matched)
        match res with
        | none => some piece
        | some (_, f) => some (false, pdConcatCols [f, piece.2])

/-- The broadcast of one static value over the target's time axis:
`pd.Series([static[c]] * len(target.data), index=target.time_index, name=c)`. -/
def staticSeries (v : Val) (c : String) (t : TimeSeries) : Frame :=
  { ikind := t.data.ikind, index := t.data.index, cols := [c],
    rows := (List.range t.data.rows.length).map (fun _ => [v]) }

/-- `TSDataset.__getitem__(columns)`: gather the requested columns from
target, observed, known and static (in that order); static values are
broadcast over `self._target.data` with no presence guard, so a static match
with an absent target raises AttributeError; finally the total matched column
count must equal the number of requested columns. -/
def TSDataset.getitem (ds : TSDataset) (columns : List String) :
    Except PyErr (Option (Bool × Frame)) :=
  if columns.dedup.length ≠ columns.length then
    .error (.valueError "Duplicated values found in the columns")
  else
    let res := partContrib none ds.target columns
    let res := partContrib res ds.observed_cov columns
    let res := partContrib res ds.known_cov columns
    match
      (match ds.static_cov with
       | none => Except.ok res
       | some m =>
         if m.isEmpty then Except.ok res
         else
           let matched := columns.filter (fun c => (m.lookup c).isSome)
           if matched.isEmpty then Except.ok res
           else
             match ds.target with
             | none => Except.error (PyErr.attributeError "NoneType object has no attribute data")
             | some t =>
               Except.ok (matched.foldl (fun r c =>
                 let piece := staticSeries ((m.lookup c).getD .nan) c t
                 match r with
                 | none => some (true, piece)
                 | some (_, f) => some (false, pdConcatCols [f, piece])) res))
    with
    | .error e => .error e
    | .ok res =>
      let count : Nat :=
        match res with
        | none => 0
        | some (true, _) => 1
        | some (false, f) => f.cols.length
      if count ≠ columns.length then
        .error (.valueError "The specified columns do not exist!")
      else
        match res with
        | some (false, f) => .ok (some (false, f.projectCols columns))
        | r => .ok r

/-- A `value` argument to `set_column` / `__setitem__`: a pandas Series (with
its index kind, labels and values), an int, a str, or some other scalar such
as a float. -/
inductive ColValue where
  | series (ik : IndexKind) (idx : List Int) (vals : List Val)
  | cint (i : Int)
  | cstr (s : String)
  | cfloat
deriving DecidableEq, Repr

/-- `isinstance(value, int) or isinstance(value, str)` on a `value` argument. -/
def ColValue.isIntOrStr : ColValue → Bool
  | .cint _ => true
  | .cstr _ => true
  | _ => false

/-- `series.reindex(target_index)`: value at each target label, or missing. -/
def reindexVals (tgtIdx : List Int) (idx : List Int) (vals : List Val) :
    List Val :=
  tgtIdx.map fun lbl => ((idx.zip vals).lookup lbl).getD .nan

/-- `attr.data[column] = value.reindex(attr.time_index)`. -/
def assignReindexed (t : TimeSeries) (column : String) (idx : List Int)
    (vals : List Val) : TimeSeries :=
  { t with data := t.data.setCol column (reindexVals t.data.index idx vals) }

/-- `TSDataset.set_column(column, value, type)`.  When the column exists,
update it in place (static update requires an int or str, time-varying update
requires a Series; no invariant re-check).  When it does not exist, create it
in the partition named by `type` (Series for the three time-varying roles,
building a fresh partition via `TimeSeries.load_from_dataframe` when absent;
int-or-str for static), then run `_check_data`. -/
def TSDataset.set_column (ds : TSDataset) (column : String) (value : ColValue)
    (ty : String) : TSDataset × Option PyErr :=
  match ds.get_item_from_column column with
  | .error _ =>
    if ty = "target" then
      match value with
      | .series ik idx vals =>
        (match ds.target with
         | some t =>
           TSDataset.check_data
             { ds with target := some (assignReindexed t column idx vals) }
         | none =>
           match loadSeriesAsTs ik idx vals column with
           | .ok nts => TSDataset.check_data { ds with target := some nts }
           | .error e => (ds, some e))
      | _ => (ds, some (.valueError "New column added to the target should be pd.Series."))
    else if ty = "known_cov" then
      match value with
      | .series ik idx vals =>
        (match ds.known_cov with
         | some t =>
           TSDataset.check_data
             { ds with known_cov := some (assignReindexed t column idx vals) }
         | none =>
           match loadSeriesAsTs ik idx vals column with
           | .ok nts => TSDataset.check_data { ds with known_cov := some nts }
           | .error e => (ds, some e))
      | _ => (ds, some (.valueError "New column added to the target should be pd.Series."))
    else if ty = "observed_cov" then
      match value with
      | .series ik idx vals =>
        (match ds.observed_cov with
         | some t =>
           TSDataset.check_data
             { ds with observed_cov := some (assignReindexed t column idx vals) }
         | none =>
           match loadSeriesAsTs ik idx vals column with
           | .ok nts => TSDataset.check_data { ds with observed_cov := some nts }
           | .error e => (ds, some e))
      | _ => (ds, some (.valueError "New column added to the observed_cov should be pd.Series."))
    else if ty = "static_cov" then
      match value with
      | .cint i =>
        TSDataset.check_data
          { ds with static_cov := some (match ds.static_cov with
              | some m => dictSet m column (.vint i)
              | none => [(column, .vint i)]) }
      | .cstr s =>
        TSDataset.check_data
          { ds with static_cov := some (match ds.static_cov with
              | some m => dictSet m column (.vstr s)
              | none => [(column, .vstr s)]) }
      | _ => (ds, some (.valueError "New column added to the static_cov should be int or str"))
    else (ds, some (.valueError "Illegal type"))
  | .ok part =>
    if part = .static then
      match value with
      | .cint i =>
        ({ ds with static_cov := ds.static_cov.map (fun m => dictSet m column (.vint i)) }, none)
      | .cstr s =>
        ({ ds with static_cov := ds.static_cov.map (fun m => dictSet m column (.vstr s)) }, none)
      | _ => (ds, some (.valueError "value is illegal!"))
    else
      match value with
      | .series _ idx vals =>
        (match part with
         | .target =>
           ({ ds with target := ds.target.map (fun t => assignReindexed t column idx vals) }, none)
         | .observed =>
           ({ ds with observed_cov := ds.observed_cov.map (fun t => assignReindexed t column idx vals) }, none)
         | .known =>
           ({ ds with known_cov := ds.known_cov.map (fun t => assignReindexed t column idx vals) }, none)
         | .static => (ds, none))
      | _ => (ds, some (.valueError "value is illegal!"))

/-- The target block of `TSDataset.drop`: drop the matching columns from the
target, reverting it to `None` when no column is left. -/
def dropTargetStage (columns : List String) (ds : TSDataset) : TSDataset :=
  match ds.target with
  | some t =>
    let cit := columns.filter (fun v => t.data.cols.contains v)
    if ¬ cit.isEmpty then
      let t' : TimeSeries := { t with data := t.data.dropCols cit }
      if t'.data.cols.length = 0 then { ds with target := none }
      else { ds with target := some t' }
    else ds
  | none => ds

/-- The observed-covariate block of `TSDataset.drop`. -/
def dropObservedStage (columns : List String) (ds : TSDataset) : TSDataset :=
  match ds.observed_cov with
  | some t =>
    let cio := columns.filter (fun v => t.data.cols.contains v)
    if ¬ cio.isEmpty then
      let t' : TimeSeries := { t with data := t.data.dropCols cio }
      if t'.data.cols.length = 0 then { ds with observed_cov := none }
      else { ds with observed_cov := some t' }
    else ds
  | none => ds

/-- The known-covariate block of `TSDataset.drop`. -/
def dropKnownStage (columns : List String) (ds : TSDataset) : TSDataset :=
  match ds.known_cov with
  | some t =>
    let cik := columns.filter (fun v => t.data.cols.contains v)
    if ¬ cik.isEmpty then
      let t' : TimeSeries := { t with data := t.data.dropCols cik }
      if t'.data.cols.length = 0 then { ds with known_cov := none }
      else { ds with known_cov := some t' }
    else ds
  | none => ds

/-- The static-covariate block of `TSDataset.drop`: delete the matching keys,
reverting to `None` when the dict becomes empty. -/
def dropStaticStage (columns : List String) (ds : TSDataset) : TSDataset :=
  match ds.static_cov with
  | some m =>
    let cis := columns.filter (fun v => (m.lookup v).isSome)
    if ¬ cis.isEmpty then
      let m' := m.filter (fun kv => ¬ cis.contains kv.1)
      if m'.length = 0 then { ds with static_cov := none }
      else { ds with static_cov := some m' }
    else ds
  | none => ds

/-- `TSDataset.drop(columns)`: after the duplicate-name guard, remove the
matching columns from target, observed, known and static in turn; a partition
whose column set becomes empty reverts to `None`.  No invariant re-check
runs. -/
def TSDataset.drop (ds : TSDataset) (columns : List String) :
    TSDataset × Option PyErr :=
  if columns.dedup.length ≠ columns.length then
    (ds, some (.valueError "Duplicated column names found"))
  else
    (dropStaticStage columns
      (dropKnownStage columns
        (dropObservedStage columns
          (dropTargetStage columns ds))), none)

/-- The column set owned by a partition, when present (static keys for the
static partition). -/
def TSDataset.partCols (ds : TSDataset) : PartKind → Option (List String)
  | .target => ds.target.map (fun t => t.data.cols)
  | .observed => ds.observed_cov.map (fun t => t.data.cols)
  | .known => ds.known_cov.map (fun t => t.data.cols)
  | .static => ds.static_cov.map (fun m => m.map Prod.fst)

/-- Whether a partition slot is absent (`None`). -/
def TSDataset.partAbsent (ds : TSDataset) : PartKind → Bool
  | .target => ds.target.isNone
  | .observed => ds.observed_cov.isNone
  | .known => ds.known_cov.isNone
  | .static => ds.static_cov.isNone

/-- `TSDataset.split(split_point, after)`: requires a truthy target; splits
the target, takes `train_target.end_time` (IndexError on an empty left half),
splits a truthy observed partition at that end-time value — a Timestamp for a
calendar axis but a plain `int` (hence a positional index!) for an ordinal
axis — leaves the known partition alone, and builds the two result datasets
through the validating constructor. -/
def TSDataset.split (ds : TSDataset) (split_point : SplitPoint)
    (after : Bool) : Except PyErr (TSDataset × TSDataset) :=
  match ds.target with
  | none => .error (.valueError "Failed to split, the TSDataset target is None.")
  | some t =>
    if t.data.rows.length = 0 then
      .error (.valueError "Failed to split, the TSDataset target is None.")
    else
      match t.split split_point after with
      | .error e => .error e
      | .ok (trainT, testT) =>
        match trainT.end_time with
        | .error e => .error e
        | .ok tp =>
          let op : SplitPoint :=
            if trainT.data.ikind = .datetime then .ts tp else .pos tp
          match
            (match ds.observed_cov with
             | some o =>
               if o.data.rows.length ≠ 0 then
                 match o.split op after with
                 | .error e => .error e
                 | .ok (a, b) => .ok (some a, some b)
               else .ok (none, none)
             | none => .ok (none, none) :
              Except PyErr (Option TimeSeries × Option TimeSeries))
          with
          | .error e => .error e
          | .ok (trainO, testO) =>
            match TSDataset.make (some trainT) trainO ds.known_cov ds.static_cov with
            | .error e => .error e
            | .ok d1 =>
              match TSDataset.make (some testT) testO ds.known_cov ds.static_cov with
              | .error e => .error e
              | .ok d2 => .ok (d1, d2)

/-- The static-covariate merge loop of `TSDataset.concat` over one panel's
dict: a key already merged must carry a `==`-equal value (`ValueError`
otherwise), a fresh key is inserted. -/
def mergeStaticsInner (acc : List (String × Val)) :
    List (String × Val) → Except PyErr (List (String × Val))
  | [] => .ok acc
  | (k, v) :: rest =>
    match acc.lookup k with
    | some v0 =>
      if valEq v0 v then mergeStaticsInner acc rest
      else .error (.valueError ("static cov key: " ++ k ++ " have diffent value! concat failed!"))
    | none => mergeStaticsInner (acc ++ [(k, v)]) rest

/-- The static-covariate merge of `TSDataset.concat` over all panels. -/
def mergeStaticsAux (acc : List (String × Val)) :
    List TSDataset → Except PyErr (List (String × Val))
  | [] => .ok acc
  | ds :: rest =>
    match ds.static_cov with
    | none => mergeStaticsAux acc rest
    | some m =>
      match mergeStaticsInner acc m with
      | .ok acc' => mergeStaticsAux acc' rest
      | .error e => .error e

/-- The whole static merge, starting from the empty dict. -/
def mergeStatics (tss : List TSDataset) : Except PyErr (List (String × Val)) :=
  mergeStaticsAux [] tss

/-- One partition stage of `TSDataset.concat`: concatenate the present
members, or `None` when there are none. -/
def concatTimeSeriesPart (parts : List TimeSeries) (axis : Int) :
    Except PyErr (Option TimeSeries) :=
  if parts.length ≠ 0 then (TimeSeries.concat parts axis).map some
  else .ok none

/-- `TSDataset.concat(tss, axis)`: concatenate targets, known covariates and
observed covariates independently (in that order), merge the static dicts,
and build the result through the validating constructor. -/
def TSDataset.concat (tss : List TSDataset) (axis : Int) :
    Except PyErr TSDataset := do
  let target ← concatTimeSeriesPart (tss.filterMap TSDataset.target) axis
  let known ← concatTimeSeriesPart (tss.filterMap TSDataset.known_cov) axis
  let observed ← concatTimeSeriesPart (tss.filterMap TSDataset.observed_cov) axis
  let st ← mergeStatics tss
  TSDataset.make target observed known (some st)

/-- The RegularSeries invariants of the specification (section 3): row count
equals axis length, rectangular rows, unique column names, no duplicate time
points, and a `str` frequency sits on a calendar axis whose points form an
arithmetic progression at the period-code's step. -/
def TimeSeries.wfP (ts : TimeSeries) : Prop :=
  ts.data.rows.length = ts.data.index.length ∧
  (∀ r ∈ ts.data.rows, r.length = ts.data.cols.length) ∧
  ts.data.cols.Nodup ∧
  ts.data.index.Nodup ∧
  (match ts.freq with
   | .fint _ => True
   | .fstr code => ts.data.ikind = .datetime ∧
       ∃ s, codeStep code = some s ∧ 0 < s ∧ ∃ a n, ts.data.index = arithList a s n)

/-- Some panel of the list binds static key `k` to value `v`. -/
def StaticBinds (tss : List TSDataset) (k : String) (v : Val) : Prop :=
  ∃ ds, ds ∈ tss ∧ ∃ m, ds.static_cov = some m ∧ (k, v) ∈ m

/-- Decidable equality for raised-or-returned results. -/
instance exceptDecEq {ε α : Type} [DecidableEq ε] [DecidableEq α] :
    DecidableEq (Except ε α) := fun a b =>
  match a, b with
  | .error e, .error f =>
    if h : e = f then .isTrue (by rw [h])
    else .isFalse (by intro hh; cases hh; exact h rfl)
  | .ok x, .ok y =>
    if h : x = y then .isTrue (by rw [h])
    else .isFalse (by intro hh; cases hh; exact h rfl)
  | .error _, .ok _ => .isFalse (by intro hh; cases hh)
  | .ok _, .error _ => .isFalse (by intro hh; cases hh)

/-- Sample ordinal target with column "a". -/
def tgtA : TimeSeries :=
  ⟨⟨.range, [0, 1, 2, 3], ["a"],
    [[.vint 10], [.vint 11], [.vint 12], [.vint 13]]⟩, .fint 1⟩

/-- Sample ordinal observed covariate with column "b". -/
def obsB : TimeSeries :=
  ⟨⟨.range, [0, 1, 2, 3], ["b"],
    [[.vint 20], [.vint 21], [.vint 22], [.vint 23]]⟩, .fint 1⟩

/-- Sample ordinal known covariate with column "c". -/
def knownC : TimeSeries :=
  ⟨⟨.range, [0, 1, 2, 3], ["c"],
    [[.vint 30], [.vint 31], [.vint 32], [.vint 33]]⟩, .fint 1⟩

/-- Sample ordinal target with a different step (frequency 2). -/
def tgtBad : TimeSeries :=
  ⟨⟨.range, [0, 2, 4], ["z"], [[.vint 1], [.vint 2], [.vint 3]]⟩, .fint 2⟩

/-- Sample static dict. -/
def regionEast : List (String × Val) := [("region", .vstr "east")]

/-- A valid sample panel holding all four partitions. -/
def samplePanel : TSDataset :=
  ⟨some tgtA, some obsB, some knownC, some regionEast, some (.fint 1)⟩

/-- Sample calendar series at daily frequency. -/
def calD : TimeSeries :=
  ⟨⟨.datetime, [0, 24, 48], ["d"], [[.vint 1], [.vint 2], [.vint 3]]⟩, .fstr "D"⟩

/-- Sample calendar series at hourly frequency. -/
def calH : TimeSeries :=
  ⟨⟨.datetime, [0, 1, 2], ["h"], [[.vint 4], [.vint 5], [.vint 6]]⟩, .fstr "H"⟩

/-- A valid sample panel whose target is absent while a static key exists. -/
def panelNoTarget : TSDataset :=
  ⟨none, some obsB, none, some regionEast, some (.fint 1)⟩

/-- Sample ordinal target with column "a2" on the same axis as `tgtA`. -/
def tgtA2 : TimeSeries :=
  ⟨⟨.range, [0, 1, 2, 3], ["a2"],
    [[.vint 40], [.vint 41], [.vint 42], [.vint 43]]⟩, .fint 1⟩

/-- Sample panel: target "a" plus static region=east. -/
def panelP1 : TSDataset :=
  ⟨some tgtA, none, none, some regionEast, some (.fint 1)⟩

/-- Sample panel: target "a2" plus static region=east. -/
def panelP2 : TSDataset :=
  ⟨some tgtA2, none, none, some regionEast, some (.fint 1)⟩

/-- Sample panel: target "a2" plus static region=west. -/
def panelP2West : TSDataset :=
  ⟨some tgtA2, none, none, some [("region", .vstr "west")], some (.fint 1)⟩

theorem dedup_length_eq_iff {α : Type} [DecidableEq α] (l : List α) :
    l.dedup.length = l.length ↔ l.Nodup := by
  constructor
  · intro h
    have hs : l.dedup.Sublist l := List.dedup_sublist l
    have heq := hs.eq_of_length h
    rw [← heq]
    exact List.nodup_dedup l
  · intro h
    rw [List.dedup_eq_self.mpr h]

theorem contains_eq_false_of_not_mem {α : Type} [BEq α] [LawfulBEq α]
    {a : α} {l : List α} (h : a ∉ l) : l.contains a = false := by
  induction l with
  | nil => rfl
  | cons b t ih =>
    simp only [List.mem_cons, not_or] at h
    simp only [List.contains_cons, Bool.or_eq_false_iff]
    exact ⟨by simpa [beq_iff_eq] using h.1, ih h.2⟩

theorem lookup_eq_none_of_not_mem_keys {β : Type} {k : String}
    {m : List (String × β)} (h : k ∉ m.map Prod.fst) : m.lookup k = none := by
  induction m with
  | nil => rfl
  | cons kv rest ih =>
    simp only [List.map_cons, List.mem_cons, not_or] at h
    obtain ⟨a, b⟩ := kv
    simp only [List.lookup]
    rw [show (k == a) = false by simpa [beq_iff_eq] using h.1]
    exact ih h.2

/-- Claim C6: constructing a Panel raises ValueError unless exactly one
distinct frequency appears among the present time-varying partitions
(covering both a mismatch like daily target with hourly observed covariate
and the zero-present-partitions case). -/
theorem C6_construction_requires_single_freq
    (t o k : Option TimeSeries) (s : Option (List (String × Val)))
    (h : (freqListOf t o k).dedup.length ≠ 1) :
    TSDataset.make t o k s =
      .error (.valueError "The freqs of target, observed_covariate, and known_covariate are not consistent.") := by
  have hch : TSDataset.check_data ⟨t, o, k, s, none⟩ =
      (⟨t, o, k, s, none⟩,
       some (.valueError "The freqs of target, observed_covariate, and known_covariate are not consistent.")) := by
    simp only [TSDataset.check_data]
    rw [if_pos h]
  simp only [TSDataset.make, hch]

theorem C6_witness :
    TSDataset.make (some calD) (some calH) none none =
      .error (.valueError "The freqs of target, observed_covariate, and known_covariate are not consistent.") ∧
    TSDataset.make none none none (some regionEast) =
      .error (.valueError "The freqs of target, observed_covariate, and known_covariate are not consistent.") :=
  ⟨C6_construction_requires_single_freq (some calD) (some calH) none none (by decide),
   C6_construction_requires_single_freq none none none (some regionEast) (by decide)⟩

theorem check_data_commits (ds : TSDataset) :
    (ds.check_data).1.target = ds.target ∧
    (ds.check_data).1.observed_cov = ds.observed_cov ∧
    (ds.check_data).1.known_cov = ds.known_cov ∧
    (ds.check_data).1.static_cov = ds.static_cov ∧
    ((ds.check_data).2 = none ↔ ds.invariantsHold = true) ∧
    ((ds.check_data).2 ≠ none → (ds.check_data).1.invariantsHold = false) := by
  by_cases h1 :
      (freqListOf ds.target ds.observed_cov ds.known_cov).dedup.length ≠ 1
  · have hset : ds.check_data =
        (ds, some (.valueError "The freqs of target, observed_covariate, and known_covariate are not consistent.")) := by
      simp only [TSDataset.check_data, TSDataset.columnsList]
      rw [if_pos h1]
    rw [hset]
    refine ⟨rfl, rfl, rfl, rfl, ?_, ?_⟩
    · refine iff_of_false (by simp) ?_
      intro htrue
      simp only [TSDataset.invariantsHold, Bool.and_eq_true, beq_iff_eq] at htrue
      exact h1 htrue.1
    · intro _
      rw [Bool.eq_false_iff]
      intro htrue
      simp only [TSDataset.invariantsHold, Bool.and_eq_true, beq_iff_eq] at htrue
      exact h1 htrue.1
  · push_neg at h1
    by_cases h2 :
        (colsListOf ds.target ds.observed_cov ds.known_cov ds.static_cov).dedup.length ≠
          (colsListOf ds.target ds.observed_cov ds.known_cov ds.static_cov).length
    · have hset : ds.check_data =
          ({ ds with freq := (freqListOf ds.target ds.observed_cov ds.known_cov).head? },
           some (.valueError "Duplicated column names in target, observed_covariate, and known_covariate.")) := by
        simp only [TSDataset.check_data, TSDataset.columnsList]
        rw [if_neg (by simpa using h1), if_pos h2]
      rw [hset]
      refine ⟨rfl, rfl, rfl, rfl, ?_, ?_⟩
      · refine iff_of_false (by simp) ?_
        intro htrue
        simp only [TSDataset.invariantsHold, TSDataset.columnsList,
          Bool.and_eq_true, beq_iff_eq] at htrue
        exact h2 htrue.2
      · intro _
        rw [Bool.eq_false_iff]
        intro htrue
        simp only [TSDataset.invariantsHold, TSDataset.columnsList,
          Bool.and_eq_true, beq_iff_eq] at htrue
        exact h2 htrue.2
    · push_neg at h2
      have hset : ds.check_data =
          ({ ds with freq := (freqListOf ds.target ds.observed_cov ds.known_cov).head? },
           none) := by
        simp only [TSDataset.check_data, TSDataset.columnsList]
        rw [if_neg (by simpa using h1), if_neg (by simpa using h2)]
      rw [hset]
      refine ⟨rfl, rfl, rfl, rfl, ?_, fun hc => absurd rfl hc⟩
      refine iff_of_true rfl ?_
      simp only [TSDataset.invariantsHold, TSDataset.columnsList,
        Bool.and_eq_true, beq_iff_eq]
      exact ⟨h1, h2⟩

/-- Claim C1 (amended): each of the four setters (`set_target`,
`set_observed_cov`, `set_known_cov`, `set_static_cov`) assigns the new
partition value first and only then runs the invariant check: the other
partitions are untouched, the call raises exactly when the invariants fail
on the assigned state, and when it raises the receiver keeps the mutated
partition — so a failing setter leaves the Panel in a state violating its
invariants rather than restoring the previous state. -/
theorem C1_amended_setters_commit_before_check
    (ds : TSDataset) (t o k : TimeSeries) (s : List (String × Val))
    (append : Bool) :
    ((ds.set_target t).1.target = some t ∧
     (ds.set_target t).1.observed_cov = ds.observed_cov ∧
     (ds.set_target t).1.known_cov = ds.known_cov ∧
     (ds.set_target t).1.static_cov = ds.static_cov ∧
     ((ds.set_target t).2 = none ↔
       ({ ds with target := some t } : TSDataset).invariantsHold = true) ∧
     ((ds.set_target t).2 ≠ none →
       (ds.set_target t).1.invariantsHold = false)) ∧
    ((ds.set_observed_cov o).1.target = ds.target ∧
     (ds.set_observed_cov o).1.observed_cov = some o ∧
     (ds.set_observed_cov o).1.known_cov = ds.known_cov ∧
     (ds.set_observed_cov o).1.static_cov = ds.static_cov ∧
     ((ds.set_observed_cov o).2 = none ↔
       ({ ds with observed_cov := some o } : TSDataset).invariantsHold = true) ∧
     ((ds.set_observed_cov o).2 ≠ none →
       (ds.set_observed_cov o).1.invariantsHold = false)) ∧
    ((ds.set_known_cov k).1.target = ds.target ∧
     (ds.set_known_cov k).1.observed_cov = ds.observed_cov ∧
     (ds.set_known_cov k).1.known_cov = some k ∧
     (ds.set_known_cov k).1.static_cov = ds.static_cov ∧
     ((ds.set_known_cov k).2 = none ↔
       ({ ds with known_cov := some k } : TSDataset).invariantsHold = true) ∧
     ((ds.set_known_cov k).2 ≠ none →
       (ds.set_known_cov k).1.invariantsHold = false)) ∧
    ((ds.set_static_cov s append).1.target = ds.target ∧
     (ds.set_static_cov s append).1.observed_cov = ds.observed_cov ∧
     (ds.set_static_cov s append).1.known_cov = ds.known_cov ∧
     (ds.set_static_cov s append).1.static_cov =
       some (match ds.static_cov with
         | some m => if append && ¬ m.isEmpty then mergeDict m s else s
         | none => s) ∧
     ((ds.set_static_cov s append).2 = none ↔
       ({ ds with static_cov := some (match ds.static_cov with
           | some m => if append && ¬ m.isEmpty then mergeDict m s else s
           | none => s) } : TSDataset).invariantsHold = true) ∧
     ((ds.set_static_cov s append).2 ≠ none →
       (ds.set_static_cov s append).1.invariantsHold = false)) := by
  refine ⟨?_, ?_, ?_, ?_⟩
  · exact check_data_commits { ds with target := some t }
  · exact check_data_commits { ds with observed_cov := some o }
  · exact check_data_commits { ds with known_cov := some k }
  · exact check_data_commits
      ⟨ds.target, ds.observed_cov, ds.known_cov,
       some (match ds.static_cov with
         | some m => if append && ¬ m.isEmpty then mergeDict m s else s
         | none => s), ds.freq⟩

theorem C1_amended_witness :
    ((samplePanel.set_target tgtBad).1.target = some tgtBad) ∧
    ((samplePanel.set_target tgtBad).1.invariantsHold = false) ∧
    ((samplePanel.set_observed_cov tgtBad).1.observed_cov = some tgtBad) ∧
    ((samplePanel.set_observed_cov tgtBad).1.invariantsHold = false) ∧
    ((samplePanel.set_known_cov tgtBad).1.known_cov = some tgtBad) ∧
    ((samplePanel.set_known_cov tgtBad).1.invariantsHold = false) ∧
    ((samplePanel.set_static_cov [("a", Val.vint 5)] true).1.static_cov =
      some (mergeDict regionEast [("a", Val.vint 5)])) ∧
    ((samplePanel.set_static_cov [("a", Val.vint 5)] true).1.invariantsHold =
      false) :=
  ⟨(C1_amended_setters_commit_before_check samplePanel tgtBad tgtBad tgtBad
      [("a", Val.vint 5)] true).1.1,
   (C1_amended_setters_commit_before_check samplePanel tgtBad tgtBad tgtBad
      [("a", Val.vint 5)] true).1.2.2.2.2.2 (by decide),
   (C1_amended_setters_commit_before_check samplePanel tgtBad tgtBad tgtBad
      [("a", Val.vint 5)] true).2.1.2.1,
   (C1_amended_setters_commit_before_check samplePanel tgtBad tgtBad tgtBad
      [("a", Val.vint 5)] true).2.1.2.2.2.2.2 (by decide),
   (C1_amended_setters_commit_before_check samplePanel tgtBad tgtBad tgtBad
      [("a", Val.vint 5)] true).2.2.1.2.2.1,
   (C1_amended_setters_commit_before_check samplePanel tgtBad tgtBad tgtBad
      [("a", Val.vint 5)] true).2.2.1.2.2.2.2.2 (by decide),
   (C1_amended_setters_commit_before_check samplePanel tgtBad tgtBad tgtBad
      [("a", Val.vint 5)] true).2.2.2.2.2.2.1,
   (C1_amended_setters_commit_before_check samplePanel tgtBad tgtBad tgtBad
      [("a", Val.vint 5)] true).2.2.2.2.2.2.2.2 (by decide)⟩


theorem C1_counterexample :
    TSDataset.make (some tgtA) (some obsB) (some knownC) (some regionEast) =
      .ok samplePanel ∧
    (samplePanel.set_target tgtBad).2 =
      some (.valueError "The freqs of target, observed_covariate, and known_covariate are not consistent.") ∧
    (samplePanel.set_target tgtBad).1.target = some tgtBad ∧
    samplePanel.target ≠ some tgtBad ∧
    (samplePanel.set_target tgtBad).1.invariantsHold = false := by
  decide

/-- Claim C2 (code bug): with time values 0, 1, 4 and step 2 the loader's
only contiguity check, `(stop - start)/freq == len(data)`, passes
(`(4 + 2 - 0)/2 == 3`) and the rows are silently relabelled onto
`RangeIndex(0, 6, 2)` — although the time value 1 does not lie on the grid
and the grid point 2 was never present, where the claim (and the code's own
comment "All integers in the range must be present") requires a raise. -/
theorem C2_code_bug_offgrid_accepted :
    TimeSeries.load_ints [0, 1, 4] ["a"] [[.vint 1], [.vint 2], [.vint 3]]
        (some 2) =
      .ok ⟨⟨.range, [0, 2, 4], ["a"], [[.vint 1], [.vint 2], [.vint 3]]⟩,
        .fint 2⟩ ∧
    (1 : Int) ∈ [(0 : Int), 1, 4] ∧ (1 : Int) ∉ rangeList 0 6 2 ∧
    (2 : Int) ∈ rangeList 0 6 2 ∧ (2 : Int) ∉ [(0 : Int), 1, 4] := by
  decide

theorem partContrib_skip (res : Option (Bool × Frame)) (part : Option TimeSeries)
    (columns : List String)
    (h : ∀ t, part = some t → ∀ c ∈ columns, c ∉ t.data.cols) :
    partContrib res part columns = res := by
  cases hp : part with
  | none => rfl
  | some t =>
    simp only [partContrib]
    by_cases hlen : t.data.rows.length = 0
    · rw [if_pos hlen]
    · rw [if_neg hlen]
      have hm : columns.filter (fun v => t.data.cols.contains v) = [] := by
        refine List.filter_eq_nil_iff.mpr ?_
        intro c hc
        simpa using contains_eq_false_of_not_mem (h t hp c hc)
      rw [hm]
      simp

/-- Claim C10: reading a static key from a Panel whose target is absent
dereferences the missing target with no presence guard — the read raises
AttributeError rather than returning the static value or the documented
"columns do not exist" ValueError. -/
theorem C10_static_read_crashes_without_target
    (ds : TSDataset) (k : String) (m : List (String × Val))
    (htn : ds.target = none)
    (hs : ds.static_cov = some m)
    (hne : m.isEmpty = false)
    (hk : (m.lookup k).isSome = true)
    (hobs : ∀ t, ds.observed_cov = some t → k ∉ t.data.cols)
    (hkn : ∀ t, ds.known_cov = some t → k ∉ t.data.cols) :
    ds.getitem [k] =
      .error (.attributeError "NoneType object has no attribute data") ∧
    ds.getitem [k] ≠ .error (.valueError "The specified columns do not exist!") ∧
    ∀ r, ds.getitem [k] ≠ .ok r := by
  have ho : partContrib none ds.observed_cov [k] = none :=
    partContrib_skip none ds.observed_cov [k] (fun t ht c hc => by
      rw [List.mem_singleton] at hc; subst hc; exact hobs t ht)
  have hkn2 : partContrib none ds.known_cov [k] = none :=
    partContrib_skip none ds.known_cov [k] (fun t ht c hc => by
      rw [List.mem_singleton] at hc; subst hc; exact hkn t ht)
  have hmain : ds.getitem [k] =
      .error (.attributeError "NoneType object has no attribute data") := by
    simp only [TSDataset.getitem, htn, hs, partContrib, ho, hkn2, hne,
      List.filter_cons, List.filter_nil, hk, List.dedup_cons_of_not_mem,
      List.not_mem_nil, not_false_iff, List.dedup_nil]
    simp
  refine ⟨hmain, ?_, ?_⟩
  · rw [hmain]; simp
  · intro r; rw [hmain]; simp

theorem C10_witness :
    panelNoTarget.getitem ["region"] =
      .error (.attributeError "NoneType object has no attribute data") ∧
    panelNoTarget.getitem ["region"] ≠
      .error (.valueError "The specified columns do not exist!") ∧
    TSDataset.make none (some obsB) none (some regionEast) = .ok panelNoTarget := by
  have h := C10_static_read_crashes_without_target panelNoTarget "region"
    regionEast rfl rfl (by decide) (by decide)
    (fun t ht => by cases ht; decide) (fun t ht => by cases ht)
  exact ⟨h.1, h.2.1, by decide⟩

theorem lookup_append_fresh {β : Type} {c : String} {v : β}
    {xs : List (String × β)} (h : c ∉ xs.map Prod.fst) :
    (xs ++ [(c, v)]).lookup c = some v := by
  induction xs with
  | nil => simp [List.lookup]
  | cons kv rest ih =>
    simp only [List.map_cons, List.mem_cons, not_or] at h
    obtain ⟨a, b⟩ := kv
    simp only [List.cons_append, List.lookup]
    rw [show (c == a) = false by simpa [beq_iff_eq] using h.1]
    exact ih h.2

theorem check_data_ok_inv (ds : TSDataset) (h : (ds.check_data).2 = none) :
    (freqListOf ds.target ds.observed_cov ds.known_cov).dedup.length = 1 ∧
    ds.columnsList.dedup.length = ds.columnsList.length := by
  unfold TSDataset.check_data at h
  by_cases h1 : (freqListOf ds.target ds.observed_cov ds.known_cov).dedup.length ≠ 1
  · rw [if_pos h1] at h; cases h
  · rw [if_neg h1] at h
    push_neg at h1
    by_cases h2 : ds.columnsList.dedup.length ≠ ds.columnsList.length
    · rw [if_pos h2] at h; cases h
    · push_neg at h2
      exact ⟨h1, h2⟩

theorem not_in_partitions_of_not_in_columnsList (ds : TSDataset) (c : String)
    (habs : c ∉ ds.columnsList) :
    (∀ t, ds.target = some t → c ∉ t.data.cols) ∧
    (∀ t, ds.observed_cov = some t → c ∉ t.data.cols) ∧
    (∀ t, ds.known_cov = some t → c ∉ t.data.cols) ∧
    (∀ m, ds.static_cov = some m → c ∉ m.map Prod.fst) := by
  refine ⟨?_, ?_, ?_, ?_⟩ <;> intro x hx hc <;> apply habs <;>
    simp only [TSDataset.columnsList, colsListOf, hx, List.mem_append] <;> tauto

theorem get_item_error_of_not_in_columnsList (ds : TSDataset) (c : String)
    (habs : c ∉ ds.columnsList) :
    ds.get_item_from_column c =
      .error (.valueError ("column: " ++ c ++ " not exists!")) := by
  obtain ⟨h1, h2, h3, h4⟩ := not_in_partitions_of_not_in_columnsList ds c habs
  have hc1 : (optCols ds.target).contains c = false := by
    cases ht : ds.target with
    | none => rfl
    | some t => exact contains_eq_false_of_not_mem (by simpa [optCols] using h1 t ht)
  have hc2 : (optCols ds.observed_cov).contains c = false := by
    cases ht : ds.observed_cov with
    | none => rfl
    | some t => exact contains_eq_false_of_not_mem (by simpa [optCols] using h2 t ht)
  have hc3 : (optCols ds.known_cov).contains c = false := by
    cases ht : ds.known_cov with
    | none => rfl
    | some t => exact contains_eq_false_of_not_mem (by simpa [optCols] using h3 t ht)
  have hc4 : (match ds.static_cov with
      | some m => (m.lookup c).isSome
      | none => false) = false := by
    cases ht : ds.static_cov with
    | none => rfl
    | some m => simp [lookup_eq_none_of_not_mem_keys (h4 m ht)]
  unfold TSDataset.get_item_from_column
  rw [hc1, hc2, hc3, hc4]
  simp

theorem get_item_static_hit (ds : TSDataset) (c : String)
    (m : List (String × Val)) (w : Val)
    (hs : ds.static_cov = some m)
    (h1 : ∀ t, ds.target = some t → c ∉ t.data.cols)
    (h2 : ∀ t, ds.observed_cov = some t → c ∉ t.data.cols)
    (h3 : ∀ t, ds.known_cov = some t → c ∉ t.data.cols)
    (hlk : m.lookup c = some w) :
    ds.get_item_from_column c = .ok .static := by
  have hc1 : (optCols ds.target).contains c = false := by
    cases ht : ds.target with
    | none => rfl
    | some t => exact contains_eq_false_of_not_mem (by simpa [optCols] using h1 t ht)
  have hc2 : (optCols ds.observed_cov).contains c = false := by
    cases ht : ds.observed_cov with
    | none => rfl
    | some t => exact contains_eq_false_of_not_mem (by simpa [optCols] using h2 t ht)
  have hc3 : (optCols ds.known_cov).contains c = false := by
    cases ht : ds.known_cov with
    | none => rfl
    | some t => exact contains_eq_false_of_not_mem (by simpa [optCols] using h3 t ht)
  have hne : m.isEmpty = false := by
    cases m with
    | nil => cases hlk
    | cons a b => rfl
  unfold TSDataset.get_item_from_column
  rw [hc1, hc2, hc3]
  simp [hs, staticTruthy, hne, hlk]

theorem static_add_ok (ds : TSDataset) (c : String) (w : Val)
    (newm : List (String × Val))
    (hval : (ds.check_data).2 = none) (habs : c ∉ ds.columnsList)
    (hnew : newm = (match ds.static_cov with
      | some m => dictSet m c w
      | none => [(c, w)])) :
    TSDataset.check_data { ds with static_cov := some newm } =
      ({ ds with static_cov := some newm,
                 freq := (freqListOf ds.target ds.observed_cov ds.known_cov).head? },
       none) ∧
    (TSDataset.check_data { ds with static_cov := some newm }).1.get_item_from_column c =
      .ok .static := by
  obtain ⟨hf, hcl⟩ := check_data_ok_inv ds hval
  obtain ⟨h1, h2, h3, h4⟩ := not_in_partitions_of_not_in_columnsList ds c habs
  have hkeys : newm.map Prod.fst =
      (match ds.static_cov with | some m => m.map Prod.fst | none => []) ++ [c] := by
    cases hsc : ds.static_cov with
    | none => simp [hnew, hsc]
    | some m =>
      have hlk : m.lookup c = none := lookup_eq_none_of_not_mem_keys (h4 m hsc)
      simp [hnew, hsc, dictSet, hlk]
  have hlook : newm.lookup c = some w := by
    cases hsc : ds.static_cov with
    | none => simp [hnew, hsc, List.lookup]
    | some m =>
      have hlk : m.lookup c = none := lookup_eq_none_of_not_mem_keys (h4 m hsc)
      rw [hnew]
      simp only [hsc, dictSet, hlk, Option.isSome_none, Bool.false_eq_true, if_false]
      exact lookup_append_fresh (h4 m hsc)
  have hcl2 : colsListOf ds.target ds.observed_cov ds.known_cov (some newm) =
      ds.columnsList ++ [c] := by
    simp only [TSDataset.columnsList, colsListOf, hkeys]
    cases ds.static_cov <;> simp
  have hnodup : (ds.columnsList ++ [c]).Nodup := by
    rw [List.nodup_append]
    refine ⟨(dedup_length_eq_iff _).mp hcl, List.nodup_singleton c, ?_⟩
    intro a ha hb
    rw [List.mem_singleton] at hb
    subst hb
    exact habs ha
  have hchk : TSDataset.check_data { ds with static_cov := some newm } =
      ({ ds with static_cov := some newm,
                 freq := (freqListOf ds.target ds.observed_cov ds.known_cov).head? },
       none) := by
    simp only [TSDataset.check_data, TSDataset.columnsList]
    rw [if_neg (not_ne_iff.mpr hf)]
    rw [if_neg (not_ne_iff.mpr (by rw [hcl2]; exact (dedup_length_eq_iff _).mpr hnodup))]
  refine ⟨hchk, ?_⟩
  rw [hchk]
  exact get_item_static_hit _ c newm w rfl
    (fun t ht => h1 t ht) (fun t ht => h2 t ht) (fun t ht => h3 t ht) hlook

/-- Claim C5 (amended): for a valid Panel and a column name not present
anywhere, writing it with `type='static_cov'` raises for every value that is
not an `int` or `str` — including a scalar float, which the code rejects —
and succeeds exactly for `int` or `str` values, after which
`get_item_from_column` resolves the name to the static partition; updating an
existing static column enforces the same int-or-str requirement. -/
theorem C5_amended_static_value_must_be_int_or_str
    (ds : TSDataset) (c : String)
    (hval : (ds.check_data).2 = none) (habs : c ∉ ds.columnsList) :
    (∀ v : ColValue, v.isIntOrStr = false →
        ds.set_column c v "static_cov" =
          (ds, some (.valueError "New column added to the static_cov should be int or str"))) ∧
    (∀ v : ColValue, v.isIntOrStr = true →
        (ds.set_column c v "static_cov").2 = none ∧
        (ds.set_column c v "static_cov").1.get_item_from_column c = .ok .static) ∧
    (∀ (ds2 : TSDataset) (c2 : String) (v : ColValue) (ty : String),
        ds2.get_item_from_column c2 = .ok .static → v.isIntOrStr = false →
        ds2.set_column c2 v ty = (ds2, some (.valueError "value is illegal!"))) := by
  have hget := get_item_error_of_not_in_columnsList ds c habs
  refine ⟨?_, ?_, ?_⟩
  · intro v hv
    unfold TSDataset.set_column
    rw [hget]
    cases v with
    | series ik idx vals => rfl
    | cint i => cases hv
    | cstr s => cases hv
    | cfloat => rfl
  · intro v hv
    unfold TSDataset.set_column
    rw [hget]
    cases v with
    | series ik idx vals => cases hv
    | cfloat => cases hv
    | cint i =>
      have h := static_add_ok ds c (.vint i) _ hval habs rfl
      exact ⟨(congrArg Prod.snd h.1).trans rfl, h.2⟩
    | cstr s =>
      have h := static_add_ok ds c (.vstr s) _ hval habs rfl
      exact ⟨(congrArg Prod.snd h.1).trans rfl, h.2⟩
  · intro ds2 c2 v ty hok hv
    unfold TSDataset.set_column
    rw [hok]
    cases v with
    | series ik idx vals => rfl
    | cint i => cases hv
    | cstr s => cases hv
    | cfloat => rfl

theorem C5_amended_witness :
    (samplePanel.set_column "newk" .cfloat "static_cov" =
      (samplePanel, some (.valueError "New column added to the static_cov should be int or str"))) ∧
    ((samplePanel.set_column "newk" (.cstr "x") "static_cov").2 = none) ∧
    ((samplePanel.set_column "newk" (.cstr "x") "static_cov").1.get_item_from_column "newk" = .ok .static) ∧
    (samplePanel.set_column "region" .cfloat "known_cov" =
      (samplePanel, some (.valueError "value is illegal!"))) := by
  have h := C5_amended_static_value_must_be_int_or_str samplePanel "newk"
    (by decide) (by decide)
  exact ⟨h.1 .cfloat rfl, (h.2.1 (.cstr "x") rfl).1, (h.2.1 (.cstr "x") rfl).2,
         h.2.2 samplePanel "region" .cfloat "known_cov" (by decide) rfl⟩

theorem C5_counterexample :
    TSDataset.make (some tgtA) (some obsB) (some knownC) (some regionEast) =
      .ok samplePanel ∧
    samplePanel.get_item_from_column "newk" =
      .error (.valueError "column: newk not exists!") ∧
    (samplePanel.set_column "newk" .cfloat "static_cov").2 =
      some (.valueError "New column added to the static_cov should be int or str") ∧
    (samplePanel.set_column "newk" .cfloat "static_cov").1 = samplePanel := by
  decide

theorem contains_eq_true_of_mem {α : Type} [BEq α] [LawfulBEq α]
    {a : α} {l : List α} (h : a ∈ l) : l.contains a = true := by
  induction l with
  | nil => cases h
  | cons b t ih =>
    rcases List.mem_cons.mp h with rfl | h'
    · simp [List.contains_cons]
    · rw [List.contains_cons, ih h', Bool.or_true]

theorem head_le_of_sorted_mem {l : List Int} (hs : l.Sorted (· < ·)) {x : Int}
    (hx : x ∈ l) {h : Int} (hh : l.head? = some h) : h ≤ x := by
  cases l with
  | nil => cases hx
  | cons a rest =>
    injection hh with hh
    subst hh
    rcases List.mem_cons.mp hx with rfl | hx'
    · exact le_refl x
    · exact le_of_lt ((List.sorted_cons.mp hs).1 x hx')

theorem le_getLast_of_sorted_mem {l : List Int} (hs : l.Sorted (· < ·)) {x : Int}
    (hx : x ∈ l) {e : Int} (he : l.getLast? = some e) : x ≤ e := by
  induction l with
  | nil => cases hx
  | cons a rest ih =>
    cases rest with
    | nil =>
      rcases List.mem_cons.mp hx with rfl | hx'
      · injection he with he; subst he; exact le_refl x
      · cases hx'
    | cons b rest2 =>
      have he2 : (b :: rest2).getLast? = some e := by
        rwa [List.getLast?_cons_cons] at he
      have hs2 : (b :: rest2).Sorted (· < ·) := (List.sorted_cons.mp hs).2
      rcases List.mem_cons.mp hx with rfl | hx'
      · have hee : e ∈ b :: rest2 := by
          cases hgl : (b :: rest2).getLast? with
          | none => rw [hgl] at he2; cases he2
          | some y =>
            rw [hgl] at he2
            injection he2 with he2
            subst he2
            exact List.mem_of_mem_getLast? hgl
        exact le_of_lt ((List.sorted_cons.mp hs).1 e hee)
      · exact ih hs2 hx' he2

theorem get_findIdx_beq {l : List Int} {t : Int} (h : t ∈ l) :
    l.get? (l.findIdx (· == t)) = some t := by
  induction l with
  | nil => cases h
  | cons a rest ih =>
    by_cases ha : a = t
    · subst ha
      simp [List.findIdx_cons]
    · rcases List.mem_cons.mp h with rfl | h'
      · exact absurd rfl ha
      · have hb : (a == t) = false := by simpa [beq_iff_eq] using ha
        simp only [List.findIdx_cons, hb, cond_false]
        simpa using ih h'

/-- Claim C8: on a calendar (DatetimeIndex) axis, resolving a timestamp that
is exactly a point of the axis returns its true zero-based position, and the
result does not depend on `prefer_after`. -/
theorem C8_exact_timestamp_position (ts : TimeSeries) (t : Int)
    (hik : ts.data.ikind = .datetime)
    (hsort : ts.data.index.Sorted (· < ·))
    (hmem : t ∈ ts.data.index) :
    ∃ i : Nat, ts.data.index.get? i = some t ∧
      ts.get_index_at_point (.ts t) true = .ok (i : Int) ∧
      ts.get_index_at_point (.ts t) false = .ok (i : Int) := by
  refine ⟨ts.data.index.findIdx (· == t), get_findIdx_beq hmem, ?_, ?_⟩ <;>
  · simp only [TimeSeries.get_index_at_point]
    rw [if_neg (by simp [hik])]
    cases hidx : ts.data.index with
    | nil => rw [hidx] at hmem; cases hmem
    | cons a rest =>
      rw [hidx] at hmem hsort
      have hh : (a :: rest).head? = some a := rfl
      cases hgl : (a :: rest).getLast? with
      | none => simp at hgl
      | some e =>
        simp only [hh, hgl]
        rw [if_neg (not_not_intro
          ⟨head_le_of_sorted_mem hsort hmem hh,
           le_getLast_of_sorted_mem hsort hmem hgl⟩)]
        rw [if_pos (contains_eq_true_of_mem hmem)]

theorem C8_witness :
    ∃ i : Nat, calD.data.index.get? i = some 24 ∧
      calD.get_index_at_point (.ts 24) true = .ok (i : Int) ∧
      calD.get_index_at_point (.ts 24) false = .ok (i : Int) :=
  C8_exact_timestamp_position calD 24 rfl (by decide) (by decide)

theorem lookup_isSome_of_mem_keys {β : Type} {k : String}
    {m : List (String × β)} (h : k ∈ m.map Prod.fst) :
    (m.lookup k).isSome = true := by
  induction m with
  | nil => cases h
  | cons kv rest ih =>
    obtain ⟨a, b⟩ := kv
    by_cases hka : k = a
    · subst hka
      simp [List.lookup]
    · simp only [List.lookup]
      rw [show (k == a) = false by simpa [beq_iff_eq] using hka]
      apply ih
      simpa [hka] using h

theorem dropTargetStage_others (columns : List String) (ds : TSDataset) :
    (dropTargetStage columns ds).observed_cov = ds.observed_cov ∧
    (dropTargetStage columns ds).known_cov = ds.known_cov ∧
    (dropTargetStage columns ds).static_cov = ds.static_cov := by
  unfold dropTargetStage
  cases ds.target with
  | none => exact ⟨rfl, rfl, rfl⟩
  | some t =>
    dsimp only
    split
    · split
      · exact ⟨rfl, rfl, rfl⟩
      · exact ⟨rfl, rfl, rfl⟩
    · exact ⟨rfl, rfl, rfl⟩

theorem dropObservedStage_others (columns : List String) (ds : TSDataset) :
    (dropObservedStage columns ds).target = ds.target ∧
    (dropObservedStage columns ds).known_cov = ds.known_cov ∧
    (dropObservedStage columns ds).static_cov = ds.static_cov := by
  unfold dropObservedStage
  cases ds.observed_cov with
  | none => exact ⟨rfl, rfl, rfl⟩
  | some t =>
    dsimp only
    split
    · split
      · exact ⟨rfl, rfl, rfl⟩
      · exact ⟨rfl, rfl, rfl⟩
    · exact ⟨rfl, rfl, rfl⟩

theorem dropKnownStage_others (columns : List String) (ds : TSDataset) :
    (dropKnownStage columns ds).target = ds.target ∧
    (dropKnownStage columns ds).observed_cov = ds.observed_cov ∧
    (dropKnownStage columns ds).static_cov = ds.static_cov := by
  unfold dropKnownStage
  cases ds.known_cov with
  | none => exact ⟨rfl, rfl, rfl⟩
  | some t =>
    dsimp only
    split
    · split
      · exact ⟨rfl, rfl, rfl⟩
      · exact ⟨rfl, rfl, rfl⟩
    · exact ⟨rfl, rfl, rfl⟩

theorem dropStaticStage_others (columns : List String) (ds : TSDataset) :
    (dropStaticStage columns ds).target = ds.target ∧
    (dropStaticStage columns ds).observed_cov = ds.observed_cov ∧
    (dropStaticStage columns ds).known_cov = ds.known_cov := by
  unfold dropStaticStage
  cases ds.static_cov with
  | none => exact ⟨rfl, rfl, rfl⟩
  | some m =>
    dsimp only
    split
    · split
      · exact ⟨rfl, rfl, rfl⟩
      · exact ⟨rfl, rfl, rfl⟩
    · exact ⟨rfl, rfl, rfl⟩

theorem dropTargetStage_cfree (columns : List String) (ds : TSDataset)
    (c : String) (h : ∀ t, ds.target = some t → c ∉ t.data.cols) :
    ∀ t', (dropTargetStage columns ds).target = some t' → c ∉ t'.data.cols := by
  intro t' ht'
  unfold dropTargetStage at ht'
  cases hx : ds.target with
  | none => rw [hx] at ht'; exact h t' ht'
  | some t =>
    rw [hx] at ht'
    dsimp only at ht'
    split at ht'
    · split at ht'
      · cases ht'
      · injection ht' with ht'
        subst ht'
        intro hc
        exact h t hx (List.mem_of_mem_filter hc)
    · exact h t' ht' 

theorem dropObservedStage_cfree (columns : List String) (ds : TSDataset)
    (c : String) (h : ∀ t, ds.observed_cov = some t → c ∉ t.data.cols) :
    ∀ t', (dropObservedStage columns ds).observed_cov = some t' →
      c ∉ t'.data.cols := by
  intro t' ht'
  unfold dropObservedStage at ht'
  cases hx : ds.observed_cov with
  | none => rw [hx] at ht'; exact h t' ht'
  | some t =>
    rw [hx] at ht'
    dsimp only at ht'
    split at ht'
    · split at ht'
      · cases ht'
      · injection ht' with ht'
        subst ht'
        intro hc
        exact h t hx (List.mem_of_mem_filter hc)
    · exact h t' ht' 

theorem dropKnownStage_cfree (columns : List String) (ds : TSDataset)
    (c : String) (h : ∀ t, ds.known_cov = some t → c ∉ t.data.cols) :
    ∀ t', (dropKnownStage columns ds).known_cov = some t' →
      c ∉ t'.data.cols := by
  intro t' ht'
  unfold dropKnownStage at ht'
  cases hx : ds.known_cov with
  | none => rw [hx] at ht'; exact h t' ht'
  | some t =>
    rw [hx] at ht'
    dsimp only at ht'
    split at ht'
    · split at ht'
      · cases ht'
      · injection ht' with ht'
        subst ht'
        intro hc
        exact h t hx (List.mem_of_mem_filter hc)
    · exact h t' ht' 

theorem dropStaticStage_cfree (columns : List String) (ds : TSDataset)
    (c : String) (h : ∀ m, ds.static_cov = some m → c ∉ m.map Prod.fst) :
    ∀ m', (dropStaticStage columns ds).static_cov = some m' →
      c ∉ m'.map Prod.fst := by
  intro m' hm'
  unfold dropStaticStage at hm'
  cases hx : ds.static_cov with
  | none => rw [hx] at hm'; exact h m' hm'
  | some m =>
    rw [hx] at hm'
    dsimp only at hm'
    split at hm'
    · split at hm'
      · cases hm'
      · injection hm' with hm'
        subst hm'
        intro hc
        apply h m hx
        obtain ⟨kv, hkv, hfst⟩ := List.mem_map.mp hc
        exact List.mem_map.mpr ⟨kv, List.mem_of_mem_filter hkv, hfst⟩
    · exact h m' hm' 

theorem dropCols_all (f : Frame) (columns : List String)
    (hcols : columns = f.cols) : (f.dropCols columns).cols.length = 0 := by
  subst hcols
  simp only [Frame.dropCols, List.length_eq_zero]
  refine List.filter_eq_nil_iff.mpr ?_
  intro a ha
  simp [contains_eq_true_of_mem ha, ha]

theorem filter_contains_self (columns cs : List String)
    (hsub : ∀ a ∈ columns, a ∈ cs) :
    columns.filter (fun v => cs.contains v) = columns :=
  List.filter_eq_self.mpr (fun a ha => contains_eq_true_of_mem (hsub a ha))

theorem not_isEmpty_of_ne_nil {α : Type} {l : List α} (h : l ≠ []) :
    ¬ (l.isEmpty = true) := by
  cases l with
  | nil => exact absurd rfl h
  | cons a t => simp

theorem dropTargetStage_complete (columns : List String) (ds : TSDataset)
    (t : TimeSeries) (hx : ds.target = some t) (hcols : columns = t.data.cols)
    (hne : columns ≠ []) :
    dropTargetStage columns ds = { ds with target := none } := by
  unfold dropTargetStage
  rw [hx]
  dsimp only
  rw [filter_contains_self columns t.data.cols (fun a ha => hcols ▸ ha)]
  rw [if_pos (not_isEmpty_of_ne_nil hne)]
  rw [if_pos (dropCols_all t.data columns hcols)]

theorem dropObservedStage_complete (columns : List String) (ds : TSDataset)
    (t : TimeSeries) (hx : ds.observed_cov = some t)
    (hcols : columns = t.data.cols) (hne : columns ≠ []) :
    dropObservedStage columns ds = { ds with observed_cov := none } := by
  unfold dropObservedStage
  rw [hx]
  dsimp only
  rw [filter_contains_self columns t.data.cols (fun a ha => hcols ▸ ha)]
  rw [if_pos (not_isEmpty_of_ne_nil hne)]
  rw [if_pos (dropCols_all t.data columns hcols)]

theorem dropKnownStage_complete (columns : List String) (ds : TSDataset)
    (t : TimeSeries) (hx : ds.known_cov = some t)
    (hcols : columns = t.data.cols) (hne : columns ≠ []) :
    dropKnownStage columns ds = { ds with known_cov := none } := by
  unfold dropKnownStage
  rw [hx]
  dsimp only
  rw [filter_contains_self columns t.data.cols (fun a ha => hcols ▸ ha)]
  rw [if_pos (not_isEmpty_of_ne_nil hne)]
  rw [if_pos (dropCols_all t.data columns hcols)]

theorem dropStaticStage_complete (columns : List String) (ds : TSDataset)
    (m : List (String × Val)) (hx : ds.static_cov = some m)
    (hcols : columns = m.map Prod.fst) (hne : columns ≠ []) :
    dropStaticStage columns ds = { ds with static_cov := none } := by
  unfold dropStaticStage
  rw [hx]
  dsimp only
  have hcis : columns.filter (fun v => (m.lookup v).isSome) = columns :=
    List.filter_eq_self.mpr
      (fun a ha => lookup_isSome_of_mem_keys (hcols ▸ ha))
  rw [hcis]
  rw [if_pos (not_isEmpty_of_ne_nil hne)]
  rw [if_pos (by
    simp only [List.length_eq_zero]
    refine List.filter_eq_nil_iff.mpr ?_
    intro kv hkv
    have hmem : kv.1 ∈ columns := by
      rw [hcols]; exact List.mem_map.mpr ⟨kv, hkv, rfl⟩
    simp [contains_eq_true_of_mem hmem, hmem])]

theorem getitem_single_missing (X : TSDataset) (c : String)
    (h1 : ∀ t, X.target = some t → c ∉ t.data.cols)
    (h2 : ∀ t, X.observed_cov = some t → c ∉ t.data.cols)
    (h3 : ∀ t, X.known_cov = some t → c ∉ t.data.cols)
    (h4 : ∀ m, X.static_cov = some m → c ∉ m.map Prod.fst) :
    X.getitem [c] = .error (.valueError "The specified columns do not exist!") := by
  have hpt : partContrib none X.target [c] = none :=
    partContrib_skip none X.target [c] (fun t ht cc hcc => by
      rw [List.mem_singleton] at hcc; subst hcc; exact h1 t ht)
  have hpo : partContrib none X.observed_cov [c] = none :=
    partContrib_skip none X.observed_cov [c] (fun t ht cc hcc => by
      rw [List.mem_singleton] at hcc; subst hcc; exact h2 t ht)
  have hpk : partContrib none X.known_cov [c] = none :=
    partContrib_skip none X.known_cov [c] (fun t ht cc hcc => by
      rw [List.mem_singleton] at hcc; subst hcc; exact h3 t ht)
  unfold TSDataset.getitem
  rw [if_neg (by simp)]
  simp only [hpt, hpo, hpk]
  cases hx : X.static_cov with
  | none => rfl
  | some m =>
    have hlk : m.lookup c = none := lookup_eq_none_of_not_mem_keys (h4 m hx)
    dsimp only
    by_cases hemp : m.isEmpty
    · rw [if_pos hemp]; rfl
    · rw [if_neg hemp]
      simp only [List.filter_cons, List.filter_nil, hlk, Option.isSome_none]
      rfl

/-- Claim C9: dropping every column of a present partition reverts that
partition to absent (`None`), and a subsequent read of a column that only
existed in that partition raises the "columns do not exist" ValueError. -/
theorem C9_drop_whole_partition (ds : TSDataset) (kind : PartKind)
    (cols : List String) (c : String)
    (hp : ds.partCols kind = some cols)
    (hnem : cols ≠ [])
    (hnd : cols.Nodup)
    (hc : c ∈ cols)
    (honly : ∀ kind2, kind2 ≠ kind → ∀ cs, ds.partCols kind2 = some cs → c ∉ cs) :
    (ds.drop cols).2 = none ∧
    (ds.drop cols).1.partAbsent kind = true ∧
    (ds.drop cols).1.getitem [c] =
      .error (.valueError "The specified columns do not exist!") := by
  have hdrop : ds.drop cols =
      (dropStaticStage cols (dropKnownStage cols (dropObservedStage cols
        (dropTargetStage cols ds))), none) := by
    unfold TSDataset.drop
    rw [if_neg (not_ne_iff.mpr ((dedup_length_eq_iff _).mpr hnd))]
  rw [hdrop]
  refine ⟨rfl, ?_⟩
  cases kind with
  | target =>
    obtain ⟨t, hxt, hcolst⟩ := Option.map_eq_some'.mp hp
    have hbo : ∀ u, ds.observed_cov = some u → c ∉ u.data.cols := fun u hu =>
      honly .observed (by decide) u.data.cols (by simp [TSDataset.partCols, hu])
    have hbk : ∀ u, ds.known_cov = some u → c ∉ u.data.cols := fun u hu =>
      honly .known (by decide) u.data.cols (by simp [TSDataset.partCols, hu])
    have hbs : ∀ m, ds.static_cov = some m → c ∉ m.map Prod.fst := fun m hm =>
      honly .static (by decide) (m.map Prod.fst) (by simp [TSDataset.partCols, hm])
    have hs1 : dropTargetStage cols ds = { ds with target := none } :=
      dropTargetStage_complete cols ds t hxt hcolst.symm hnem
    have ht4 :
        (dropStaticStage cols (dropKnownStage cols (dropObservedStage cols
          (dropTargetStage cols ds)))).target = none := by
      rw [(dropStaticStage_others cols _).1, (dropKnownStage_others cols _).1,
          (dropObservedStage_others cols _).1, hs1]
    have hcf1 : ∀ t',
        (dropStaticStage cols (dropKnownStage cols (dropObservedStage cols
          (dropTargetStage cols ds)))).target = some t' → c ∉ t'.data.cols := by
      intro t' h'
      rw [ht4] at h'
      cases h'
    have hcf2 : ∀ t',
        (dropStaticStage cols (dropKnownStage cols (dropObservedStage cols
          (dropTargetStage cols ds)))).observed_cov = some t' →
          c ∉ t'.data.cols := by
      intro t' h'
      rw [(dropStaticStage_others cols _).2.1,
          (dropKnownStage_others cols _).2.1] at h'
      exact dropObservedStage_cfree cols _ c
        (fun u hu => hbo u (by rwa [(dropTargetStage_others cols ds).1] at hu))
        t' h'
    have hcf3 : ∀ t',
        (dropStaticStage cols (dropKnownStage cols (dropObservedStage cols
          (dropTargetStage cols ds)))).known_cov = some t' →
          c ∉ t'.data.cols := by
      intro t' h'
      rw [(dropStaticStage_others cols _).2.2] at h'
      exact dropKnownStage_cfree cols _ c
        (fun u hu => hbk u (by
          rwa [(dropObservedStage_others cols _).2.1,
               (dropTargetStage_others cols ds).2.1] at hu))
        t' h'
    have hcf4 : ∀ m',
        (dropStaticStage cols (dropKnownStage cols (dropObservedStage cols
          (dropTargetStage cols ds)))).static_cov = some m' →
          c ∉ m'.map Prod.fst := by
      intro m' h'
      exact dropStaticStage_cfree cols _ c
        (fun m hm => hbs m (by
          rwa [(dropKnownStage_others cols _).2.2,
               (dropObservedStage_others cols _).2.2,
               (dropTargetStage_others cols ds).2.2] at hm))
        m' h'
    exact ⟨by simp [TSDataset.partAbsent, ht4],
      getitem_single_missing _ c hcf1 hcf2 hcf3 hcf4⟩
  | observed =>
    obtain ⟨t, hxt, hcolst⟩ := Option.map_eq_some'.mp hp
    have hbt : ∀ u, ds.target = some u → c ∉ u.data.cols := fun u hu =>
      honly .target (by decide) u.data.cols (by simp [TSDataset.partCols, hu])
    have hbk : ∀ u, ds.known_cov = some u → c ∉ u.data.cols := fun u hu =>
      honly .known (by decide) u.data.cols (by simp [TSDataset.partCols, hu])
    have hbs : ∀ m, ds.static_cov = some m → c ∉ m.map Prod.fst := fun m hm =>
      honly .static (by decide) (m.map Prod.fst) (by simp [TSDataset.partCols, hm])
    have hx1 : (dropTargetStage cols ds).observed_cov = some t := by
      rw [(dropTargetStage_others cols ds).1, hxt]
    have hs2 : dropObservedStage cols (dropTargetStage cols ds) =
        { dropTargetStage cols ds with observed_cov := none } :=
      dropObservedStage_complete cols _ t hx1 hcolst.symm hnem
    have ho4 :
        (dropStaticStage cols (dropKnownStage cols (dropObservedStage cols
          (dropTargetStage cols ds)))).observed_cov = none := by
      rw [(dropStaticStage_others cols _).2.1,
          (dropKnownStage_others cols _).2.1, hs2]
    have hcf2 : ∀ t',
        (dropStaticStage cols (dropKnownStage cols (dropObservedStage cols
          (dropTargetStage cols ds)))).observed_cov = some t' →
          c ∉ t'.data.cols := by
      intro t' h'
      rw [ho4] at h'
      cases h'
    have hcf1 : ∀ t',
        (dropStaticStage cols (dropKnownStage cols (dropObservedStage cols
          (dropTargetStage cols ds)))).target = some t' → c ∉ t'.data.cols := by
      intro t' h'
      rw [(dropStaticStage_others cols _).1, (dropKnownStage_others cols _).1,
          (dropObservedStage_others cols _).1] at h'
      exact dropTargetStage_cfree cols ds c hbt t' h'
    have hcf3 : ∀ t',
        (dropStaticStage cols (dropKnownStage cols (dropObservedStage cols
          (dropTargetStage cols ds)))).known_cov = some t' →
          c ∉ t'.data.cols := by
      intro t' h'
      rw [(dropStaticStage_others cols _).2.2] at h'
      exact dropKnownStage_cfree cols _ c
        (fun u hu => hbk u (by
          rwa [(dropObservedStage_others cols _).2.1,
               (dropTargetStage_others cols ds).2.1] at hu))
        t' h'
    have hcf4 : ∀ m',
        (dropStaticStage cols (dropKnownStage cols (dropObservedStage cols
          (dropTargetStage cols ds)))).static_cov = some m' →
          c ∉ m'.map Prod.fst := by
      intro m' h'
      exact dropStaticStage_cfree cols _ c
        (fun m hm => hbs m (by
          rwa [(dropKnownStage_others cols _).2.2,
               (dropObservedStage_others cols _).2.2,
               (dropTargetStage_others cols ds).2.2] at hm))
        m' h'
    exact ⟨by simp [TSDataset.partAbsent, ho4],
      getitem_single_missing _ c hcf1 hcf2 hcf3 hcf4⟩
  | known =>
    obtain ⟨t, hxt, hcolst⟩ := Option.map_eq_some'.mp hp
    have hbt : ∀ u, ds.target = some u → c ∉ u.data.cols := fun u hu =>
      honly .target (by decide) u.data.cols (by simp [TSDataset.partCols, hu])
    have hbo : ∀ u, ds.observed_cov = some u → c ∉ u.data.cols := fun u hu =>
      honly .observed (by decide) u.data.cols (by simp [TSDataset.partCols, hu])
    have hbs : ∀ m, ds.static_cov = some m → c ∉ m.map Prod.fst := fun m hm =>
      honly .static (by decide) (m.map Prod.fst) (by simp [TSDataset.partCols, hm])
    have hx2 : (dropObservedStage cols (dropTargetStage cols ds)).known_cov =
        some t := by
      rw [(dropObservedStage_others cols _).2.1,
          (dropTargetStage_others cols ds).2.1, hxt]
    have hs3 : dropKnownStage cols (dropObservedStage cols
        (dropTargetStage cols ds)) =
        { dropObservedStage cols (dropTargetStage cols ds) with
            known_cov := none } :=
      dropKnownStage_complete cols _ t hx2 hcolst.symm hnem
    have hk4 :
        (dropStaticStage cols (dropKnownStage cols (dropObservedStage cols
          (dropTargetStage cols ds)))).known_cov = none := by
      rw [(dropStaticStage_others cols _).2.2, hs3]
    have hcf3 : ∀ t',
        (dropStaticStage cols (dropKnownStage cols (dropObservedStage cols
          (dropTargetStage cols ds)))).known_cov = some t' →
          c ∉ t'.data.cols := by
      intro t' h'
      rw [hk4] at h'
      cases h'
    have hcf1 : ∀ t',
        (dropStaticStage cols (dropKnownStage cols (dropObservedStage cols
          (dropTargetStage cols ds)))).target = some t' → c ∉ t'.data.cols := by
      intro t' h'
      rw [(dropStaticStage_others cols _).1, (dropKnownStage_others cols _).1,
          (dropObservedStage_others cols _).1] at h'
      exact dropTargetStage_cfree cols ds c hbt t' h'
    have hcf2 : ∀ t',
        (dropStaticStage cols (dropKnownStage cols (dropObservedStage cols
          (dropTargetStage cols ds)))).observed_cov = some t' →
          c ∉ t'.data.cols := by
      intro t' h'
      rw [(dropStaticStage_others cols _).2.1,
          (dropKnownStage_others cols _).2.1] at h'
      exact dropObservedStage_cfree cols _ c
        (fun u hu => hbo u (by rwa [(dropTargetStage_others cols ds).1] at hu))
        t' h'
    have hcf4 : ∀ m',
        (dropStaticStage cols (dropKnownStage cols (dropObservedStage cols
          (dropTargetStage cols ds)))).static_cov = some m' →
          c ∉ m'.map Prod.fst := by
      intro m' h'
      exact dropStaticStage_cfree cols _ c
        (fun m hm => hbs m (by
          rwa [(dropKnownStage_others cols _).2.2,
               (dropObservedStage_others cols _).2.2,
               (dropTargetStage_others cols ds).2.2] at hm))
        m' h'
    exact ⟨by simp [TSDataset.partAbsent, hk4],
      getitem_single_missing _ c hcf1 hcf2 hcf3 hcf4⟩
  | static =>
    obtain ⟨m, hxm, hcolsm⟩ := Option.map_eq_some'.mp hp
    have hbt : ∀ u, ds.target = some u → c ∉ u.data.cols := fun u hu =>
      honly .target (by decide) u.data.cols (by simp [TSDataset.partCols, hu])
    have hbo : ∀ u, ds.observed_cov = some u → c ∉ u.data.cols := fun u hu =>
      honly .observed (by decide) u.data.cols (by simp [TSDataset.partCols, hu])
    have hbk : ∀ u, ds.known_cov = some u → c ∉ u.data.cols := fun u hu =>
      honly .known (by decide) u.data.cols (by simp [TSDataset.partCols, hu])
    have hx3 : (dropKnownStage cols (dropObservedStage cols
        (dropTargetStage cols ds))).static_cov = some m := by
      rw [(dropKnownStage_others cols _).2.2,
          (dropObservedStage_others cols _).2.2,
          (dropTargetStage_others cols ds).2.2, hxm]
    have hs4 : dropStaticStage cols (dropKnownStage cols (dropObservedStage cols
        (dropTargetStage cols ds))) =
        { dropKnownStage cols (dropObservedStage cols
            (dropTargetStage cols ds)) with static_cov := none } :=
      dropStaticStage_complete cols _ m hx3 hcolsm.symm hnem
    have hst4 :
        (dropStaticStage cols (dropKnownStage cols (dropObservedStage cols
          (dropTargetStage cols ds)))).static_cov = none := by
      rw [hs4]
    have hcf4 : ∀ m',
        (dropStaticStage cols (dropKnownStage cols (dropObservedStage cols
          (dropTargetStage cols ds)))).static_cov = some m' →
          c ∉ m'.map Prod.fst := by
      intro m' h'
      rw [hst4] at h'
      cases h'
    have hcf1 : ∀ t',
        (dropStaticStage cols (dropKnownStage cols (dropObservedStage cols
          (dropTargetStage cols ds)))).target = some t' → c ∉ t'.data.cols := by
      intro t' h'
      rw [(dropStaticStage_others cols _).1, (dropKnownStage_others cols _).1,
          (dropObservedStage_others cols _).1] at h'
      exact dropTargetStage_cfree cols ds c hbt t' h'
    have hcf2 : ∀ t',
        (dropStaticStage cols (dropKnownStage cols (dropObservedStage cols
          (dropTargetStage cols ds)))).observed_cov = some t' →
          c ∉ t'.data.cols := by
      intro t' h'
      rw [(dropStaticStage_others cols _).2.1,
          (dropKnownStage_others cols _).2.1] at h'
      exact dropObservedStage_cfree cols _ c
        (fun u hu => hbo u (by rwa [(dropTargetStage_others cols ds).1] at hu))
        t' h'
    have hcf3 : ∀ t',
        (dropStaticStage cols (dropKnownStage cols (dropObservedStage cols
          (dropTargetStage cols ds)))).known_cov = some t' →
          c ∉ t'.data.cols := by
      intro t' h'
      rw [(dropStaticStage_others cols _).2.2] at h'
      exact dropKnownStage_cfree cols _ c
        (fun u hu => hbk u (by
          rwa [(dropObservedStage_others cols _).2.1,
               (dropTargetStage_others cols ds).2.1] at hu))
        t' h'
    exact ⟨by simp [TSDataset.partAbsent, hst4],
      getitem_single_missing _ c hcf1 hcf2 hcf3 hcf4⟩

theorem C9_witness :
    ((samplePanel.drop ["b"]).2 = none ∧
      (samplePanel.drop ["b"]).1.partAbsent .observed = true ∧
      (samplePanel.drop ["b"]).1.getitem ["b"] =
        .error (.valueError "The specified columns do not exist!")) ∧
    ((samplePanel.drop ["region"]).2 = none ∧
      (samplePanel.drop ["region"]).1.partAbsent .static = true ∧
      (samplePanel.drop ["region"]).1.getitem ["region"] =
        .error (.valueError "The specified columns do not exist!")) :=
  ⟨C9_drop_whole_partition samplePanel .observed ["b"] "b" (by decide)
      (by decide) (by decide) (by decide)
      (by intro k2 hk2 cs hcs
          cases k2 with
          | target =>
            simp [TSDataset.partCols, samplePanel, tgtA] at hcs
            subst hcs; decide
          | observed => exact absurd rfl hk2
          | known =>
            simp [TSDataset.partCols, samplePanel, knownC] at hcs
            subst hcs; decide
          | static =>
            simp [TSDataset.partCols, samplePanel, regionEast] at hcs
            subst hcs; decide),
   C9_drop_whole_partition samplePanel .static ["region"] "region" (by decide)
      (by decide) (by decide) (by decide)
      (by intro k2 hk2 cs hcs
          cases k2 with
          | target =>
            simp [TSDataset.partCols, samplePanel, tgtA] at hcs
            subst hcs; decide
          | observed =>
            simp [TSDataset.partCols, samplePanel, obsB] at hcs
            subst hcs; decide
          | known =>
            simp [TSDataset.partCols, samplePanel, knownC] at hcs
            subst hcs; decide
          | static => exact absurd rfl hk2)⟩

theorem valEq_eq {a b : Val} (h : valEq a b = true) : a = b := by
  cases a <;> cases b <;> simp only [valEq] at h <;> first
  | cases h
  | rw [beq_iff_eq] at h; rw [h]

theorem lookup_append_left {β : Type} {k : String} {v : β}
    {xs ys : List (String × β)} (h : xs.lookup k = some v) :
    (xs ++ ys).lookup k = some v := by
  induction xs with
  | nil => cases h
  | cons kv rest ih =>
    obtain ⟨a, b⟩ := kv
    simp only [List.cons_append, List.lookup] at h ⊢
    cases hb : (k == a) with
    | true => rw [hb] at h; exact h
    | false => rw [hb] at h; exact ih h

theorem lookup_append_none {β : Type} {k : String}
    {xs : List (String × β)} (ys : List (String × β))
    (h : xs.lookup k = none) : (xs ++ ys).lookup k = ys.lookup k := by
  induction xs with
  | nil => rfl
  | cons kv rest ih =>
    obtain ⟨a, b⟩ := kv
    simp only [List.cons_append, List.lookup] at h ⊢
    cases hb : (k == a) with
    | true => rw [hb] at h; cases h
    | false => rw [hb] at h; exact ih h

theorem not_mem_keys_of_lookup_none {β : Type} {k : String}
    {m : List (String × β)} (h : m.lookup k = none) :
    k ∉ m.map Prod.fst := by
  intro hmem
  have hs := lookup_isSome_of_mem_keys hmem
  rw [h] at hs
  cases hs

theorem inner_mono {acc acc' : List (String × Val)} {m : List (String × Val)}
    (h : mergeStaticsInner acc m = .ok acc') :
    ∀ k v, acc.lookup k = some v → acc'.lookup k = some v := by
  induction m generalizing acc with
  | nil =>
    intro k v hkv
    unfold mergeStaticsInner at h
    injection h with h
    rw [← h]
    exact hkv
  | cons p rest ih =>
    obtain ⟨k0, v0⟩ := p
    unfold mergeStaticsInner at h
    intro k v hkv
    cases hl : acc.lookup k0 with
    | some w =>
      simp only [hl] at h
      by_cases hv : valEq w v0
      · rw [if_pos hv] at h
        exact ih h k v hkv
      · rw [if_neg hv] at h; cases h
    | none =>
      simp only [hl] at h
      exact ih h k v (lookup_append_left hkv)

theorem inner_binds {acc acc' : List (String × Val)} {m : List (String × Val)}
    (h : mergeStaticsInner acc m = .ok acc') :
    ∀ kv ∈ m, acc'.lookup kv.1 = some kv.2 := by
  induction m generalizing acc with
  | nil => intro kv hkv; cases hkv
  | cons p rest ih =>
    obtain ⟨k0, v0⟩ := p
    unfold mergeStaticsInner at h
    intro kv hkv
    rcases List.mem_cons.mp hkv with rfl | hkv'
    · cases hl : acc.lookup k0 with
      | some w =>
        simp only [hl] at h
        by_cases hv : valEq w v0
        · rw [if_pos hv] at h
          have hwv : w = v0 := valEq_eq hv
          subst hwv
          exact inner_mono h k0 w hl
        · rw [if_neg hv] at h; cases h
      | none =>
        simp only [hl] at h
        have hfresh : (acc ++ [(k0, v0)]).lookup k0 = some v0 := by
          rw [lookup_append_none _ hl]
          simp [List.lookup]
        exact inner_mono h _ _ hfresh
    · cases hl : acc.lookup k0 with
      | some w =>
        simp only [hl] at h
        by_cases hv : valEq w v0
        · rw [if_pos hv] at h
          exact ih h kv hkv'
        · rw [if_neg hv] at h; cases h
      | none =>
        simp only [hl] at h
        exact ih h kv hkv'

theorem inner_nodup {acc acc' : List (String × Val)} {m : List (String × Val)}
    (h : mergeStaticsInner acc m = .ok acc')
    (hnd : (acc.map Prod.fst).Nodup) : (acc'.map Prod.fst).Nodup := by
  induction m generalizing acc with
  | nil =>
    unfold mergeStaticsInner at h
    injection h with h
    rw [← h]
    exact hnd
  | cons p rest ih =>
    obtain ⟨k0, v0⟩ := p
    unfold mergeStaticsInner at h
    cases hl : acc.lookup k0 with
    | some w =>
      simp only [hl] at h
      by_cases hv : valEq w v0
      · rw [if_pos hv] at h
        exact ih h hnd
      · rw [if_neg hv] at h; cases h
    | none =>
      simp only [hl] at h
      refine ih h ?_
      rw [List.map_append, List.nodup_append]
      exact ⟨hnd, by simp, fun a ha hb => by
        rw [List.map_singleton, List.mem_singleton] at hb
        subst hb
        exact not_mem_keys_of_lookup_none hl ha⟩

theorem inner_error_shape {acc : List (String × Val)}
    {m : List (String × Val)} {e : PyErr}
    (h : mergeStaticsInner acc m = .error e) :
    ∃ kk, e = .valueError
      ("static cov key: " ++ kk ++ " have diffent value! concat failed!") := by
  induction m generalizing acc with
  | nil => cases h
  | cons p rest ih =>
    obtain ⟨k0, v0⟩ := p
    unfold mergeStaticsInner at h
    cases hl : acc.lookup k0 with
    | some w =>
      simp only [hl] at h
      by_cases hv : valEq w v0
      · rw [if_pos hv] at h
        exact ih h
      · rw [if_neg hv] at h
        injection h with h
        exact ⟨k0, h.symm⟩
    | none =>
      simp only [hl] at h
      exact ih h

theorem aux_mono {acc acc' : List (String × Val)} {tss : List TSDataset}
    (h : mergeStaticsAux acc tss = .ok acc') :
    ∀ k v, acc.lookup k = some v → acc'.lookup k = some v := by
  induction tss generalizing acc with
  | nil =>
    intro k v hkv
    unfold mergeStaticsAux at h
    injection h with h
    rw [← h]
    exact hkv
  | cons d rest ih =>
    unfold mergeStaticsAux at h
    cases hs : d.static_cov with
    | none => simp only [hs] at h; exact ih h
    | some m =>
      simp only [hs] at h
      cases hm : mergeStaticsInner acc m with
      | ok acc1 =>
        simp only [hm] at h
        intro k v hkv
        exact ih h k v (inner_mono hm k v hkv)
      | error e => simp only [hm] at h; cases h

theorem aux_binds {acc acc' : List (String × Val)} {tss : List TSDataset}
    (h : mergeStaticsAux acc tss = .ok acc') :
    ∀ d ∈ tss, ∀ m, d.static_cov = some m →
      ∀ kv ∈ m, acc'.lookup kv.1 = some kv.2 := by
  induction tss generalizing acc with
  | nil => intro d hd; cases hd
  | cons d0 rest ih =>
    unfold mergeStaticsAux at h
    intro d hd m hm kv hkv
    rcases List.mem_cons.mp hd with rfl | hd'
    · simp only [hm] at h
      cases hmg : mergeStaticsInner acc m with
      | ok acc1 =>
        simp only [hmg] at h
        exact aux_mono h _ _ (inner_binds hmg kv hkv)
      | error e => simp only [hmg] at h; cases h
    · cases hs : d0.static_cov with
      | none => simp only [hs] at h; exact ih h d hd' m hm kv hkv
      | some m2 =>
        simp only [hs] at h
        cases hmg : mergeStaticsInner acc m2 with
        | ok acc1 => simp only [hmg] at h; exact ih h d hd' m hm kv hkv
        | error e => simp only [hmg] at h; cases h

theorem aux_nodup {acc acc' : List (String × Val)} {tss : List TSDataset}
    (h : mergeStaticsAux acc tss = .ok acc')
    (hnd : (acc.map Prod.fst).Nodup) : (acc'.map Prod.fst).Nodup := by
  induction tss generalizing acc with
  | nil =>
    unfold mergeStaticsAux at h
    injection h with h
    rw [← h]
    exact hnd
  | cons d rest ih =>
    unfold mergeStaticsAux at h
    cases hs : d.static_cov with
    | none => simp only [hs] at h; exact ih h hnd
    | some m =>
      simp only [hs] at h
      cases hm : mergeStaticsInner acc m with
      | ok acc1 =>
        simp only [hm] at h
        exact ih h (inner_nodup hm hnd)
      | error e => simp only [hm] at h; cases h

theorem aux_error_shape {acc : List (String × Val)} {tss : List TSDataset}
    {e : PyErr} (h : mergeStaticsAux acc tss = .error e) :
    ∃ kk, e = .valueError
      ("static cov key: " ++ kk ++ " have diffent value! concat failed!") := by
  induction tss generalizing acc with
  | nil => cases h
  | cons d rest ih =>
    unfold mergeStaticsAux at h
    cases hs : d.static_cov with
    | none => simp only [hs] at h; exact ih h
    | some m =>
      simp only [hs] at h
      cases hm : mergeStaticsInner acc m with
      | ok acc1 => simp only [hm] at h; exact ih h
      | error e2 =>
        simp only [hm] at h
        injection h with h
        subst h
        exact inner_error_shape hm

theorem make_fields {t o k : Option TimeSeries}
    {s : Option (List (String × Val))} {ds : TSDataset}
    (h : TSDataset.make t o k s = .ok ds) :
    ds.target = t ∧ ds.observed_cov = o ∧ ds.known_cov = k ∧
      ds.static_cov = s := by
  simp only [TSDataset.make, TSDataset.check_data, TSDataset.columnsList] at h
  by_cases h1 : (freqListOf t o k).dedup.length ≠ 1
  · rw [if_pos h1] at h; cases h
  · rw [if_neg h1] at h
    by_cases h2 : (colsListOf t o k s).dedup.length ≠ (colsListOf t o k s).length
    · rw [if_pos h2] at h; cases h
    · rw [if_neg h2] at h
      have h3 : Except.ok (⟨t, o, k, s, (freqListOf t o k).head?⟩ : TSDataset) =
          Except.ok ds := h
      injection h3 with h3
      rw [← h3]
      exact ⟨rfl, rfl, rfl, rfl⟩

/-- Claim C7: Panel concatenation merges static keys across all panels; a key
held by two panels with different values makes it raise the conflict
ValueError (once the per-partition TimeSeries concatenations themselves
succeed), and whenever concatenation succeeds the result's static mapping has
exactly one entry per key, carrying the common value. -/
theorem C7_concat_static_merge :
    (∀ (tss : List TSDataset) (axis : Int) (k : String) (v1 v2 : Val)
        (ot ok2 oo : Option TimeSeries),
      concatTimeSeriesPart (tss.filterMap TSDataset.target) axis = .ok ot →
      concatTimeSeriesPart (tss.filterMap TSDataset.known_cov) axis = .ok ok2 →
      concatTimeSeriesPart (tss.filterMap TSDataset.observed_cov) axis = .ok oo →
      StaticBinds tss k v1 → StaticBinds tss k v2 → v1 ≠ v2 →
      ∃ kk, TSDataset.concat tss axis =
        .error (.valueError
          ("static cov key: " ++ kk ++ " have diffent value! concat failed!"))) ∧
    (∀ (tss : List TSDataset) (axis : Int) (ds : TSDataset),
      TSDataset.concat tss axis = .ok ds →
      ∃ m, mergeStatics tss = .ok m ∧ ds.static_cov = some m ∧
        (m.map Prod.fst).Nodup ∧
        ∀ k v, StaticBinds tss k v → m.lookup k = some v) := by
  constructor
  · intro tss axis k v1 v2 ot ok2 oo ht hk ho hb1 hb2 hne
    have hmerge : ∀ m0, mergeStatics tss ≠ .ok m0 := by
      intro m0 hm0
      obtain ⟨d1, hd1, m1, hsm1, hkv1⟩ := hb1
      obtain ⟨d2, hd2, m2, hsm2, hkv2⟩ := hb2
      have l1 := aux_binds hm0 d1 hd1 m1 hsm1 (k, v1) hkv1
      have l2 := aux_binds hm0 d2 hd2 m2 hsm2 (k, v2) hkv2
      rw [l1] at l2
      exact hne (Option.some.inj l2)
    cases hmm : mergeStatics tss with
    | ok m0 => exact absurd hmm (hmerge m0)
    | error e =>
      obtain ⟨kk, hkk⟩ := aux_error_shape hmm
      refine ⟨kk, ?_⟩
      unfold TSDataset.concat
      rw [ht, hk, ho, hmm, hkk]
      rfl
  · intro tss axis ds hcc
    unfold TSDataset.concat at hcc
    cases h1 : concatTimeSeriesPart (tss.filterMap TSDataset.target) axis with
    | error e => rw [h1] at hcc; exact Except.noConfusion hcc
    | ok ot =>
      rw [h1] at hcc
      cases h2 : concatTimeSeriesPart (tss.filterMap TSDataset.known_cov) axis with
      | error e => rw [h2] at hcc; exact Except.noConfusion hcc
      | ok ok2 =>
        rw [h2] at hcc
        cases h3 : concatTimeSeriesPart (tss.filterMap TSDataset.observed_cov) axis with
        | error e => rw [h3] at hcc; exact Except.noConfusion hcc
        | ok oo =>
          rw [h3] at hcc
          cases h4 : mergeStatics tss with
          | error e => rw [h4] at hcc; exact Except.noConfusion hcc
          | ok m0 =>
            rw [h4] at hcc
            have hmk : TSDataset.make ot oo ok2 (some m0) = .ok ds := hcc
            refine ⟨m0, rfl, (make_fields hmk).2.2.2, aux_nodup h4 (by simp), ?_⟩
            intro k v hb
            obtain ⟨d1, hd1, m1, hsm1, hkv1⟩ := hb
            exact aux_binds h4 d1 hd1 m1 hsm1 (k, v) hkv1

theorem C7_witness :
    (∃ kk, TSDataset.concat [panelP1, panelP2West] 1 =
      .error (.valueError
        ("static cov key: " ++ kk ++ " have diffent value! concat failed!"))) ∧
    (∃ m, mergeStatics [panelP1, panelP2] = .ok m ∧
      (TSDataset.concat [panelP1, panelP2] 1).toOption.isSome = true ∧
      (m.map Prod.fst).Nodup ∧
      ∀ k v, StaticBinds [panelP1, panelP2] k v → m.lookup k = some v) := by
  constructor
  · exact C7_concat_static_merge.1 [panelP1, panelP2West] 1 "region"
      (.vstr "east") (.vstr "west")
      (some ⟨⟨.range, [0, 1, 2, 3], ["a", "a2"],
        [[.vint 10, .vint 40], [.vint 11, .vint 41],
         [.vint 12, .vint 42], [.vint 13, .vint 43]]⟩, .fint 1⟩)
      none none (by decide) (by decide) (by decide)
      ⟨panelP1, by decide, regionEast, rfl, by decide⟩
      ⟨panelP2West, by decide, [("region", .vstr "west")], rfl, by decide⟩
      (by decide)
  · have hok : TSDataset.concat [panelP1, panelP2] 1 =
        .ok ⟨some ⟨⟨.range, [0, 1, 2, 3], ["a", "a2"],
              [[.vint 10, .vint 40], [.vint 11, .vint 41],
               [.vint 12, .vint 42], [.vint 13, .vint 43]]⟩, .fint 1⟩,
            none, none, some regionEast, some (.fint 1)⟩ := by decide
    obtain ⟨m, hm1, hm2, hm3, hm4⟩ := C7_concat_static_merge.2
      [panelP1, panelP2] 1 _ hok
    exact ⟨m, hm1, by rw [hok]; rfl, hm3, hm4⟩

theorem zip_lookup_self {α β : Type} [BEq α] [LawfulBEq α]
    (keys : List α) (vals : List β) (d : β)
    (hnod : keys.Nodup) (hlen : vals.length = keys.length) :
    (keys.map fun k => (((keys.zip vals).lookup k).getD d)) = vals := by
  induction keys generalizing vals with
  | nil =>
    cases vals with
    | nil => rfl
    | cons v vs => cases hlen
  | cons k ks ih =>
    cases vals with
    | nil => cases hlen
    | cons v vs =>
      simp only [List.zip_cons_cons, List.map_cons]
      congr 1
      · simp [List.lookup]
      · have hk : k ∉ ks := (List.nodup_cons.mp hnod).1
        have hmc : (ks.map fun k2 => ((((k, v) :: ks.zip vs).lookup k2).getD d)) =
            ks.map fun k2 => (((ks.zip vs).lookup k2).getD d) := by
          refine List.map_congr_left ?_
          intro a ha
          have hne : (a == k) = false := by
            rw [beq_eq_false_iff_ne]
            rintro rfl
            exact hk ha
          simp [List.lookup, hne]
        rw [hmc]
        exact ih vs (List.nodup_cons.mp hnod).2 (by simpa using hlen)

theorem projectCols_self (f : Frame) (hnd : f.cols.Nodup)
    (hrows : ∀ r ∈ f.rows, r.length = f.cols.length) :
    f.projectCols f.cols = f := by
  obtain ⟨ik, idx, cs, rs⟩ := f
  simp only [Frame.projectCols, Frame.mk.injEq, true_and]
  have : ∀ r ∈ rs, (cs.map fun c => (((cs.zip r).lookup c).getD Val.nan)) = r :=
    fun r hr => zip_lookup_self cs r .nan hnd (hrows r hr)
  calc rs.map (fun r => cs.map fun c => (((cs.zip r).lookup c).getD Val.nan)) =
      rs.map id := List.map_congr_left (fun r hr => this r hr)
    _ = rs := List.map_id rs

theorem reindexRows_self (f : Frame) (hnd : f.index.Nodup)
    (hlen : f.rows.length = f.index.length) :
    f.reindexRows f.index = f := by
  obtain ⟨ik, idx, cs, rs⟩ := f
  simp only [Frame.reindexRows, Frame.mk.injEq, true_and]
  exact zip_lookup_self idx rs (nanRow cs.length) hnd hlen

theorem arithList_head (a s : Int) (n : Nat) (h : 0 < n) :
    (arithList a s n).head? = some a := by
  cases n with
  | zero => cases h
  | succ m =>
    simp [arithList, List.range_succ_eq_map]

theorem arithList_getLast (a s : Int) (n : Nat) (h : 0 < n) :
    (arithList a s n).getLast? = some (a + s * ((n - 1 : Nat) : Int)) := by
  cases n with
  | zero => cases h
  | succ m =>
    rw [arithList, List.range_succ, List.map_append, List.map_singleton,
      List.getLast?_concat]
    simp

theorem arithList_take (a s : Int) (n k : Nat) :
    (arithList a s n).take k = arithList a s (min k n) := by
  rw [arithList, arithList, ← List.map_take, List.take_range]

theorem arithList_drop (a s : Int) (n k : Nat) :
    (arithList a s n).drop k = arithList (a + s * (k : Int)) s (n - k) := by
  rcases le_or_lt k n with hk | hk
  · obtain ⟨d, rfl⟩ : ∃ d, n = k + d := ⟨n - k, by omega⟩
    rw [show k + d - k = d by omega]
    rw [arithList, List.range_add, List.map_append]
    rw [List.drop_left' (by simp)]
    rw [List.map_map, arithList]
    refine List.map_congr_left ?_
    intro i hi
    simp only [Function.comp]
    push_cast
    ring
  · have hlen2 : (arithList a s n).length = n := by simp [arithList]
    rw [List.drop_eq_nil_of_le (by rw [hlen2]; omega),
      show n - k = 0 by omega]
    rfl

theorem dateRange_arith (a s : Int) (n : Nat) (hs : 0 < s) (hn : 0 < n) :
    dateRange a (a + s * ((n - 1 : Nat) : Int)) s = arithList a s n := by
  unfold dateRange
  have hnn : (0 : Int) ≤ s * ((n - 1 : Nat) : Int) := by positivity
  rw [if_pos ⟨hs, by omega⟩]
  have hsub : a + s * ((n - 1 : Nat) : Int) - a = s * ((n - 1 : Nat) : Int) := by
    ring
  rw [hsub]
  have htn : (s * ((n - 1 : Nat) : Int)).toNat = s.toNat * (n - 1) := by
    obtain ⟨sn, rfl⟩ := Int.eq_ofNat_of_zero_le hs.le
    rw [← Nat.cast_mul, Int.toNat_natCast, Int.toNat_natCast]
  rw [htn, Nat.mul_div_cancel_left _ (by omega : 0 < s.toNat),
    show n - 1 + 1 = n by omega]
  rfl

theorem make_conform (f : Frame) (code : String) (s a : Int) (n : Nat)
    (hik : f.ikind = .datetime) (hcs : codeStep code = some s) (hs : 0 < s)
    (hidx : f.index = arithList a s n) (hnd : f.index.Nodup)
    (hlen : f.rows.length = f.index.length) :
    TimeSeries.make f (.fstr code) = .ok ⟨f, .fstr code⟩ := by
  simp only [TimeSeries.make, hcs]
  rw [if_neg (by simp [hik])]
  by_cases hemp : f.index.isEmpty
  · rw [if_pos hemp]
  · rw [if_neg hemp]
    rw [if_neg (not_ne_iff.mpr ((dedup_length_eq_iff _).mpr hnd))]
    have hn : 0 < n := by
      by_contra hzero
      push_neg at hzero
      have hz : n = 0 := by omega
      subst hz
      apply hemp
      rw [hidx]
      rfl
    have hh : f.index.head? = some a := by
      rw [hidx]; exact arithList_head a s n hn
    have hl : f.index.getLast? = some (a + s * ((n - 1 : Nat) : Int)) := by
      rw [hidx]; exact arithList_getLast a s n hn
    simp only [hh, hl]
    rw [dateRange_arith a s n hs hn, ← hidx, reindexRows_self f hnd hlen]

theorem make_slice_id (ts : TimeSeries) (hwf : ts.wfP) :
    (∀ j, TimeSeries.make (ts.data.ilocTo j) ts.freq =
      .ok ⟨ts.data.ilocTo j, ts.freq⟩) ∧
    (∀ j, TimeSeries.make (ts.data.ilocFrom j) ts.freq =
      .ok ⟨ts.data.ilocFrom j, ts.freq⟩) ∧
    TimeSeries.make ts.data ts.freq = .ok ⟨ts.data, ts.freq⟩ := by
  obtain ⟨hlen, hrows, hcnd, hind, hfq⟩ := hwf
  cases hf : ts.freq with
  | fint st => exact ⟨fun j => rfl, fun j => rfl, rfl⟩
  | fstr code =>
    rw [hf] at hfq
    obtain ⟨hik, s, hcs, hs, a, n, hidx⟩ := hfq
    refine ⟨fun j => ?_, fun j => ?_, ?_⟩
    · refine make_conform _ code s a (min j n) (by simpa [Frame.ilocTo] using hik)
        hcs hs ?_ ?_ ?_
      · show ts.data.index.take j = _
        rw [hidx, arithList_take]
      · exact hind.sublist (List.take_sublist j ts.data.index)
      · simp [Frame.ilocTo, hlen]
    · refine make_conform _ code s (a + s * (j : Int)) (n - j)
        (by simpa [Frame.ilocFrom] using hik) hcs hs ?_ ?_ ?_
      · show ts.data.index.drop j = _
        rw [hidx, arithList_drop]
      · exact hind.sublist (List.drop_sublist j ts.data.index)
      · simp [Frame.ilocFrom, hlen]
    · exact make_conform _ code s a n hik hcs hs hidx hind hlen

theorem colUnion_pair_same (f g : Frame) (h : g.cols = f.cols) :
    colUnion [f, g] = f.cols := by
  unfold colUnion
  simp only [List.foldl_cons, List.foldl_nil, List.nil_append, h]
  have h1 : (f.cols.filter fun c => ¬ ([] : List String).contains c) = f.cols :=
    List.filter_eq_self.mpr (fun a _ => by simp)
  rw [h1]
  have h2 : (f.cols.filter fun c => ¬ f.cols.contains c) = [] :=
    List.filter_eq_nil_iff.mpr
      (fun a ha => by simp [contains_eq_true_of_mem ha, ha])
  rw [h2, List.append_nil]

theorem pdConcatRows_pair_same (f g : Frame) (hcols : g.cols = f.cols)
    (hndf : f.cols.Nodup)
    (hrf : ∀ r ∈ f.rows, r.length = f.cols.length)
    (hrg : ∀ r ∈ g.rows, r.length = g.cols.length) :
    pdConcatRows [f, g] =
      ⟨f.ikind, f.index ++ g.index, f.cols, f.rows ++ g.rows⟩ := by
  unfold pdConcatRows
  rw [colUnion_pair_same f g hcols]
  simp only [List.map_cons, List.map_nil, List.flatten_cons, List.flatten_nil,
    List.append_nil, Frame.mk.injEq, true_and]
  have h1 : (f.projectCols f.cols).rows = f.rows :=
    congrArg Frame.rows (projectCols_self f hndf hrf)
  have h2 : (g.projectCols f.cols).rows = g.rows := by
    rw [← hcols]
    exact congrArg Frame.rows
      (projectCols_self g (hcols ▸ hndf) hrg)
  rw [h1, h2]

theorem concat_slices (ts : TimeSeries) (k : Nat)
    (hcnd : ts.data.cols.Nodup) (hind : ts.data.index.Nodup)
    (hrows : ∀ r ∈ ts.data.rows, r.length = ts.data.cols.length)
    (hmkAll : TimeSeries.make ts.data ts.freq = .ok ⟨ts.data, ts.freq⟩) :
    TimeSeries.concat
      [⟨ts.data.ilocTo k, ts.freq⟩, ⟨ts.data.ilocFrom k, ts.freq⟩] 0 =
      .ok ts := by
  unfold TimeSeries.concat
  rw [if_neg (not_ne_iff.mpr (by simp))]
  show (if (pdConcatRows [ts.data.ilocTo k, ts.data.ilocFrom k]).index.dedup.length ≠
        (pdConcatRows [ts.data.ilocTo k, ts.data.ilocFrom k]).index.length
      then Except.error
        (.valueError "Failed to concatenate, duplicated values found in the time column.")
      else TimeSeries.make
        (pdConcatRows [ts.data.ilocTo k, ts.data.ilocFrom k]) ts.freq) =
    Except.ok ts
  rw [pdConcatRows_pair_same (ts.data.ilocTo k) (ts.data.ilocFrom k) rfl hcnd
    (fun rr hrr => hrows rr (List.take_subset k ts.data.rows hrr))
    (fun rr hrr => hrows rr (List.drop_subset k ts.data.rows hrr))]
  have hfr : (⟨(ts.data.ilocTo k).ikind,
      (ts.data.ilocTo k).index ++ (ts.data.ilocFrom k).index,
      (ts.data.ilocTo k).cols,
      (ts.data.ilocTo k).rows ++ (ts.data.ilocFrom k).rows⟩ : Frame) =
      ts.data := by
    simp only [Frame.ilocTo, Frame.ilocFrom, List.take_append_drop]
  rw [hfr]
  rw [if_neg (not_ne_iff.mpr ((dedup_length_eq_iff _).mpr hind))]
  exact hmkAll

theorem split_components {X Y l r : TimeSeries}
    (h : (match (Except.ok X : Except PyErr TimeSeries) with
          | .error e => (.error e : Except PyErr (TimeSeries × TimeSeries))
          | .ok left =>
            match (Except.ok Y : Except PyErr TimeSeries) with
            | .error e => .error e
            | .ok right => Except.ok (left, right)) = Except.ok (l, r)) :
    X = l ∧ Y = r := by
  have h2 : Except.ok (ε := PyErr) (X, Y) = Except.ok (l, r) := h
  injection h2 with h3
  exact ⟨congrArg Prod.fst h3, congrArg Prod.snd h3⟩

/-- Claim C4: splitting a well-formed TimeSeries at any valid split point and
re-concatenating the two halves along the time axis reproduces the original
series exactly — same rows, same columns, in the original order. -/
theorem C4_split_concat_round_trip (ts l r : TimeSeries) (p : SplitPoint)
    (after : Bool) (hwf : ts.wfP) (hsplit : ts.split p after = .ok (l, r)) :
    TimeSeries.concat [l, r] 0 = .ok ts := by
  obtain ⟨hmkTo, hmkFrom, hmkAll⟩ := make_slice_id ts hwf
  obtain ⟨hlen, hrows, hcnd, hind, hfq⟩ := hwf
  unfold TimeSeries.split at hsplit
  cases hgp : ts.get_index_at_point p after with
  | error e => rw [hgp] at hsplit; cases hsplit
  | ok point =>
    simp only [hgp] at hsplit
    rw [hmkTo, hmkFrom] at hsplit
    obtain ⟨hl, hr⟩ := split_components hsplit
    subst hl
    subst hr
    exact concat_slices ts _ hcnd hind hrows hmkAll

theorem C4_witness :
    ∃ l r : TimeSeries, tgtA.split (.pos 2) true = .ok (l, r) ∧
      TimeSeries.concat [l, r] 0 = .ok tgtA := by
  refine ⟨⟨⟨.range, [0, 1], ["a"], [[.vint 10], [.vint 11]]⟩, .fint 1⟩,
    ⟨⟨.range, [2, 3], ["a"], [[.vint 12], [.vint 13]]⟩, .fint 1⟩,
    by decide, ?_⟩
  exact C4_split_concat_round_trip tgtA _ _ (.pos 2) true
    (by constructor
        · decide
        · constructor
          · intro rr hrr
            fin_cases hrr <;> decide
          · refine ⟨by decide, by decide, trivial⟩)
    (by decide)

/-- Claim C3 (amended): Panel split raises when the target is absent; on
ordinal (RangeIndex) axes with a present non-empty observed partition and a
valid integer split point, the target is split positionally at the point
while the observed partition is split by passing the left target half's last
TIME VALUE as a POSITIONAL row index (so the left observed half is the first
`end_time` rows, not the rows up to that time point), and the known and
static partitions are passed unchanged into both resulting Panels. -/
theorem C3_amended_split_ordinal :
    (∀ (ds : TSDataset) (sp : SplitPoint) (af : Bool), ds.target = none →
      ds.split sp af =
        .error (.valueError "Failed to split, the TSDataset target is None.")) ∧
    (∀ (ds : TSDataset) (td od : Frame) (f : Int) (p te : Int) (af : Bool),
      ds.target = some ⟨td, .fint f⟩ →
      ds.observed_cov = some ⟨od, .fint f⟩ →
      td.ikind = .range →
      (ds.check_data).2 = none →
      0 ≤ p → p < (td.rows.length : Int) →
      (td.index.take p.toNat).getLast? = some te →
      0 ≤ te → te < (od.rows.length : Int) →
      od.rows.length ≠ 0 →
      ds.split (.pos p) af = .ok
        (⟨some ⟨td.ilocTo p.toNat, .fint f⟩,
          some ⟨od.ilocTo te.toNat, .fint f⟩,
          ds.known_cov, ds.static_cov, some (.fint f)⟩,
         ⟨some ⟨td.ilocFrom p.toNat, .fint f⟩,
          some ⟨od.ilocFrom te.toNat, .fint f⟩,
          ds.known_cov, ds.static_cov, some (.fint f)⟩)) := by
  constructor
  · intro ds sp af htn
    unfold TSDataset.split
    rw [htn]
  · intro ds td od f p te af ht ho hik hchk hp0 hp1 hte hte0 hte1 holen
    have hlen0 : ¬ td.rows.length = 0 := by
      intro h0
      rw [h0] at hp1
      simp at hp1
      omega
    have hpk : (p + 0).toNat = p.toNat := by omega
    have htek : (te + 0).toNat = te.toNat := by omega
    have hgp1 : TimeSeries.get_index_at_point ⟨td, .fint f⟩ (.pos p) af =
        .ok p := by
      simp only [TimeSeries.get_index_at_point]
      rw [if_neg (by push_neg; exact ⟨hp0, hp1⟩)]
    have hgp2 : TimeSeries.get_index_at_point ⟨od, .fint f⟩ (.pos te) af =
        .ok te := by
      simp only [TimeSeries.get_index_at_point]
      rw [if_neg (by push_neg; exact ⟨hte0, hte1⟩)]
    have hts : TimeSeries.split ⟨td, .fint f⟩ (.pos p) af =
        .ok (⟨td.ilocTo (p + 0).toNat, .fint f⟩,
             ⟨td.ilocFrom (p + 0).toNat, .fint f⟩) := by
      unfold TimeSeries.split
      rw [hgp1]
      rfl
    have hos : TimeSeries.split ⟨od, .fint f⟩ (.pos te) af =
        .ok (⟨od.ilocTo (te + 0).toNat, .fint f⟩,
             ⟨od.ilocFrom (te + 0).toNat, .fint f⟩) := by
      unfold TimeSeries.split
      rw [hgp2]
      rfl
    rw [hpk] at hts
    rw [htek] at hos
    have hett : TimeSeries.end_time ⟨td.ilocTo p.toNat, .fint f⟩ = .ok te := by
      unfold TimeSeries.end_time
      simp only [show (td.ilocTo p.toNat).index = td.index.take p.toNat from rfl,
        hte]
    have hik2 : (td.ilocTo p.toNat).ikind = IndexKind.range := hik
    obtain ⟨hf1, hc1⟩ := check_data_ok_inv ds hchk
    rw [ht, ho] at hf1
    simp only [TSDataset.columnsList] at hc1
    rw [ht, ho] at hc1
    have hch1 : TSDataset.check_data ⟨some ⟨td.ilocTo p.toNat, .fint f⟩,
        some ⟨od.ilocTo te.toNat, .fint f⟩, ds.known_cov, ds.static_cov,
        none⟩ =
        (⟨some ⟨td.ilocTo p.toNat, .fint f⟩,
          some ⟨od.ilocTo te.toNat, .fint f⟩,
          ds.known_cov, ds.static_cov, some (.fint f)⟩, none) := by
      simp only [TSDataset.check_data, TSDataset.columnsList]
      rw [if_neg (not_ne_iff.mpr (show (freqListOf
        (some ⟨td.ilocTo p.toNat, .fint f⟩)
        (some ⟨od.ilocTo te.toNat, .fint f⟩)
        ds.known_cov).dedup.length = 1 from hf1))]
      rw [if_neg (not_ne_iff.mpr (show (colsListOf
          (some ⟨td.ilocTo p.toNat, .fint f⟩)
          (some ⟨od.ilocTo te.toNat, .fint f⟩)
          ds.known_cov ds.static_cov).dedup.length =
          (colsListOf (some ⟨td.ilocTo p.toNat, .fint f⟩)
            (some ⟨od.ilocTo te.toNat, .fint f⟩)
            ds.known_cov ds.static_cov).length from hc1))]
      rfl
    have hch2 : TSDataset.check_data ⟨some ⟨td.ilocFrom p.toNat, .fint f⟩,
        some ⟨od.ilocFrom te.toNat, .fint f⟩, ds.known_cov, ds.static_cov,
        none⟩ =
        (⟨some ⟨td.ilocFrom p.toNat, .fint f⟩,
          some ⟨od.ilocFrom te.toNat, .fint f⟩,
          ds.known_cov, ds.static_cov, some (.fint f)⟩, none) := by
      simp only [TSDataset.check_data, TSDataset.columnsList]
      rw [if_neg (not_ne_iff.mpr (show (freqListOf
        (some ⟨td.ilocFrom p.toNat, .fint f⟩)
        (some ⟨od.ilocFrom te.toNat, .fint f⟩)
        ds.known_cov).dedup.length = 1 from hf1))]
      rw [if_neg (not_ne_iff.mpr (show (colsListOf
          (some ⟨td.ilocFrom p.toNat, .fint f⟩)
          (some ⟨od.ilocFrom te.toNat, .fint f⟩)
          ds.known_cov ds.static_cov).dedup.length =
          (colsListOf (some ⟨td.ilocFrom p.toNat, .fint f⟩)
            (some ⟨od.ilocFrom te.toNat, .fint f⟩)
            ds.known_cov ds.static_cov).length from hc1))]
      rfl
    have hmk1 : TSDataset.make (some ⟨td.ilocTo p.toNat, .fint f⟩)
        (some ⟨od.ilocTo te.toNat, .fint f⟩) ds.known_cov ds.static_cov =
        .ok ⟨some ⟨td.ilocTo p.toNat, .fint f⟩,
          some ⟨od.ilocTo te.toNat, .fint f⟩,
          ds.known_cov, ds.static_cov, some (.fint f)⟩ := by
      simp only [TSDataset.make, hch1]
    have hmk2 : TSDataset.make (some ⟨td.ilocFrom p.toNat, .fint f⟩)
        (some ⟨od.ilocFrom te.toNat, .fint f⟩) ds.known_cov ds.static_cov =
        .ok ⟨some ⟨td.ilocFrom p.toNat, .fint f⟩,
          some ⟨od.ilocFrom te.toNat, .fint f⟩,
          ds.known_cov, ds.static_cov, some (.fint f)⟩ := by
      simp only [TSDataset.make, hch2]
    unfold TSDataset.split
    simp only [ht]
    rw [if_neg hlen0]
    simp only [hts, hett, hik2]
    rw [if_neg (show ¬ (IndexKind.range = IndexKind.datetime) by decide)]
    simp only [ho]
    rw [if_pos holen]
    simp only [hos, hmk1, hmk2]

theorem C3_counterexample :
    TSDataset.make (some tgtA) (some obsB) (some knownC) (some regionEast) =
      .ok samplePanel ∧
    ((samplePanel.split (.pos 2) true).toOption.map (fun pr =>
        (pr.1.target.map (fun t => t.data.index.getLast?),
         pr.1.observed_cov.map (fun t => t.data.index.getLast?)))) =
      some (some (some 1), some (some 0)) ∧
    (1 : Int) ≠ 0 := by
  decide

theorem C3_amended_witness :
    (panelNoTarget.split (.pos 2) true =
      .error (.valueError "Failed to split, the TSDataset target is None.")) ∧
    (samplePanel.split (.pos 2) true = .ok
      (⟨some ⟨(tgtA.data.ilocTo 2), .fint 1⟩,
        some ⟨(obsB.data.ilocTo 1), .fint 1⟩,
        samplePanel.known_cov, samplePanel.static_cov, some (.fint 1)⟩,
       ⟨some ⟨(tgtA.data.ilocFrom 2), .fint 1⟩,
        some ⟨(obsB.data.ilocFrom 1), .fint 1⟩,
        samplePanel.known_cov, samplePanel.static_cov, some (.fint 1)⟩)) :=
  ⟨C3_amended_split_ordinal.1 panelNoTarget (.pos 2) true rfl,
   C3_amended_split_ordinal.2 samplePanel tgtA.data obsB.data 1 2 1 true
     rfl rfl rfl (by decide) (by decide) (by decide) (by decide) (by decide)
     (by decide) (by decide)⟩
